import Mathlib

set_option linter.unusedSectionVars false
set_option linter.unusedVariables false

/-!
Verification of the ink-engine stroke tessellator
(`src/renderer/wasm/ink_engine/src/lib.rs`).

The Rust code works on `f32` scalars.  We embed it shallowly over an
arbitrary linear ordered field `α` with a floor structure (so that the
`ceil … as usize` casts can be expressed); the executable instance used by
concrete witnesses is `ℚ`, and claims that need genuine trigonometry are
settled over `ℝ`.  The transcendental primitives (`sqrt`, `cos`, `sin`,
`atan2`) are abstracted into an `Ops` record, since their `f32`
approximations have no exact counterpart; every other arithmetic operation
of the source is translated literally (decimal constants such as `0.5`,
`1e-4`, `1e-6` become the exact rationals `1/2`, `1/10000`, `1/1000000`,
and `std::f32::consts::PI` becomes the exact value `6588397/2097152` of the
`f32` constant).

Rust slice indexing `xs[i]` panics when out of bounds, so it is modelled by
`xs[i]?  : Option _` and the whole builder returns `Option (List α)`;
`xs.get(i).unwrap_or(&d)` is total and becomes `xs.getD i d`.  Vector
mutation (`Vec::push` through `push_vertex`/`push_tri`) is modelled by
returning the appended scalars and concatenating with `++` in the order the
source pushes them.
-/

/-- Abstract transcendental primitives of `f32` used by the ink engine.
`atan2 y x` takes its arguments in the Rust order `y.atan2(x)`. -/
structure Ops (α : Type) where
  sqrt : α → α
  cos : α → α
  sin : α → α
  atan2 : α → α → α

variable {α : Type} [LinearOrderedField α]

/-- Exact value of the 32-bit float constant `std::f32::consts::PI`. -/
def fPI : α := 6588397 / 2097152

/-- Embedding of `push_vertex`: one vertex is the six scalars
`(x, y, r, g, b, a)` appended to the output buffer. -/
def push_vertex (x y r g b a : α) : List α := [x, y, r, g, b, a]

/-- Embedding of `push_tri`: three vertices pushed in caller order. -/
def push_tri (p q t : α × α) (r g b a : α) : List α :=
  push_vertex p.1 p.2 r g b a ++ push_vertex q.1 q.2 r g b a ++
    push_vertex t.1 t.2 r g b a

/-- Embedding of `circle_mesh`: the fixed 24-triangle full-circle fan used
for single-point strokes. -/
def circle_mesh (ops : Ops α) (cx cy radius r g b a : α) : List α :=
  let steps : ℕ := 24
  (List.range steps).flatMap fun i =>
    let a0 := (i : α) / (steps : α) * fPI * 2
    let a1 := ((i + 1 : ℕ) : α) / (steps : α) * fPI * 2
    let p0 := (cx + ops.cos a0 * radius, cy + ops.sin a0 * radius)
    let p1 := (cx + ops.cos a1 * radius, cy + ops.sin a1 * radius)
    push_tri (cx, cy) p0 p1 r g b a

/-- Embedding of the `while a1 < a0 { a1 += PI * 2 }` wrap-around loop that
both `cap_mesh` and the join-fan emitter use before measuring the swept
angle. -/
def wrap_a1 [FloorRing α] (a0 a1 : α) : α :=
  if a1 < a0 then wrap_a1 a0 (a1 + fPI * 2) else a1
termination_by (⌈(a0 - a1) / (fPI * 2)⌉).toNat
decreasing_by
  simp_wf
  have hc : (0 : α) < fPI * 2 := by norm_num [fPI]
  have hpos : (0 : α) < (a0 - a1) / (fPI * 2) := div_pos (by linarith) hc
  have hdiv : (a0 - (a1 + fPI * 2)) / (fPI * 2)
      = (a0 - a1) / (fPI * 2) - 1 := by
    rw [show a0 - (a1 + fPI * 2) = (a0 - a1) - fPI * 2 by ring, sub_div,
      div_self (ne_of_gt hc)]
  rw [hdiv, Int.ceil_sub_one]
  exact ⟨by omega, hpos⟩

variable [FloorRing α]

/-- Embedding of `cap_mesh`: a round end cap, swept from the angle of
`-normal` to the angle of `normal` with step at most `PI/10` and at least
six triangles. -/
def cap_mesh (ops : Ops α) (center normal : α × α) (radius r g b a : α) :
    List α :=
  let cx := center.1
  let cy := center.2
  let a0 := ops.atan2 (-normal.2) (-normal.1)
  let a1 := wrap_a1 a0 (ops.atan2 normal.2 normal.1)
  let angle := a1 - a0
  let steps := max (⌈angle / (fPI / 10)⌉).toNat 6
  (List.range steps).flatMap fun s =>
    let t0 := a0 + angle * (s : α) / (steps : α)
    let t1 := a0 + angle * ((s + 1 : ℕ) : α) / (steps : α)
    let p0 := (cx + ops.cos t0 * radius, cy + ops.sin t0 * radius)
    let p1 := (cx + ops.cos t1 * radius, cy + ops.sin t1 * radius)
    push_tri (cx, cy) p0 p1 r g b a

/-- Embedding of one iteration of the first loop of `build_mesh`: the unit
direction of segment `i`, with the segment length floored at `1e-6` before
normalisation. -/
def seg_dir (ops : Ops α) (points : List α) (i : ℕ) : Option (α × α) := do
  let x0 ← points[i * 2]?
  let y0 ← points[i * 2 + 1]?
  let x1 ← points[(i + 1) * 2]?
  let y1 ← points[(i + 1) * 2 + 1]?
  let dx := x1 - x0
  let dy := y1 - y0
  let len := max (ops.sqrt (dx * dx + dy * dy)) (1 / 1000000)
  some (dx / len, dy / len)

/-- Left-hand perpendicular `(-dir.1, dir.0)` pushed into `norms` by the
same loop. -/
def norm_of (d : α × α) : α × α := (-d.2, d.1)

/-- Per-point data computed by the second loop of `build_mesh`: the four
offset points and the join flag (`join = true` means miter, `false` means
round, exactly as the Rust comment `true = miter, false = round`). -/
structure OffsetData (α : Type) where
  left_prev : α × α
  right_prev : α × α
  left_next : α × α
  right_next : α × α
  join : Bool
deriving DecidableEq

/-- Embedding of one iteration of the second loop of `build_mesh`: offset
points and the miter/round classification for centerline point `i`.  Each
iteration of the Rust loop writes only the slots of index `i`, so the loop
is faithfully a map over `i`. -/
def offset_at (ops : Ops α) (points widths : List α) (norms : List (α × α))
    (n i : ℕ) : Option (OffsetData α) := do
  let px ← points[i * 2]?
  let py ← points[i * 2 + 1]?
  let radius := widths.getD i 1 * (1 / 2)
  if i = 0 then
    let n0 ← norms[0]?
    let lp := (px + n0.1 * radius, py + n0.2 * radius)
    let rp := (px - n0.1 * radius, py - n0.2 * radius)
    some ⟨lp, rp, lp, rp, true⟩
  else if i = n - 1 then
    let n0 ← norms[n - 2]?
    let lp := (px + n0.1 * radius, py + n0.2 * radius)
    let rp := (px - n0.1 * radius, py - n0.2 * radius)
    some ⟨lp, rp, lp, rp, true⟩
  else do
    let n0 ← norms[i - 1]?
    let n1 ← norms[i]?
    let miter := (n0.1 + n1.1, n0.2 + n1.2)
    let miter_len := ops.sqrt (miter.1 * miter.1 + miter.2 * miter.2)
    if miter_len < 1 / 10000 then
      some ⟨(px + n0.1 * radius, py + n0.2 * radius),
            (px - n0.1 * radius, py - n0.2 * radius),
            (px + n1.1 * radius, py + n1.2 * radius),
            (px - n1.1 * radius, py - n1.2 * radius), false⟩
    else
      let mdir := (miter.1 / miter_len, miter.2 / miter_len)
      let dot := mdir.1 * n1.1 + mdir.2 * n1.2
      let miter_length := if 1 / 1000000 < |dot| then radius / dot else radius
      let miter_limit : α := 4
      if |miter_length| ≤ miter_limit * radius then
        let lp := (px + mdir.1 * miter_length, py + mdir.2 * miter_length)
        let rp := (px - mdir.1 * miter_length, py - mdir.2 * miter_length)
        some ⟨lp, rp, lp, rp, true⟩
      else
        some ⟨(px + n0.1 * radius, py + n0.2 * radius),
              (px - n0.1 * radius, py - n0.2 * radius),
              (px + n1.1 * radius, py + n1.2 * radius),
              (px - n1.1 * radius, py - n1.2 * radius), false⟩

/-- Embedding of one iteration of the quad loop of `build_mesh`: the two
triangles of the quad for segment `i`. -/
def quad_at (offs : List (OffsetData α)) (r g b a : α) (i : ℕ) :
    Option (List α) := do
  let o0 ← offs[i]?
  let o1 ← offs[i + 1]?
  some (push_tri o0.left_next o0.right_next o1.right_prev r g b a ++
        push_tri o0.left_next o1.right_prev o1.left_prev r g b a)

/-- Geometry of the join fan at a round interior point, as computed inside
the join-fan loop of `build_mesh` once the reads have been resolved: outer
side selection by the cross product, wrap-around of the end angle, step
count `max(ceil(angle / (PI/8)), 4)` and the fan triangles. -/
def fan_body (ops : Ops α) (px py radius : α) (d0 d1 : α × α)
    (r g b a : α) : List α :=
  let n0 := (-d0.2, d0.1)
  let n1 := (-d1.2, d1.1)
  let cross := d0.1 * d1.2 - d0.2 * d1.1
  let outer0 := if 0 ≤ cross then n0 else (-n0.1, -n0.2)
  let outer1 := if 0 ≤ cross then n1 else (-n1.1, -n1.2)
  let a0 := ops.atan2 outer0.2 outer0.1
  let a1 := wrap_a1 a0 (ops.atan2 outer1.2 outer1.1)
  let angle := a1 - a0
  let steps := max (⌈angle / (fPI / 8)⌉).toNat 4
  (List.range steps).flatMap fun s =>
    let t0 := a0 + angle * (s : α) / (steps : α)
    let t1 := a0 + angle * ((s + 1 : ℕ) : α) / (steps : α)
    let p0 := (px + ops.cos t0 * radius, py + ops.sin t0 * radius)
    let p1 := (px + ops.cos t1 * radius, py + ops.sin t1 * radius)
    push_tri (px, py) p0 p1 r g b a

/-- Embedding of one iteration of the join-fan loop of `build_mesh`: the fan
for interior point `i`, empty when the point was classified as a miter
(`continue` in the source). -/
def fan_at (ops : Ops α) (points widths : List α) (dirs : List (α × α))
    (offs : List (OffsetData α)) (r g b a : α) (i : ℕ) : Option (List α) := do
  let o ← offs[i]?
  if o.join then
    some []
  else do
    let px ← points[i * 2]?
    let py ← points[i * 2 + 1]?
    let radius := widths.getD i 1 * (1 / 2)
    let d0 ← dirs[i - 1]?
    let d1 ← dirs[i]?
    some (fan_body ops px py radius d0 d1 r g b a)

/-- Embedding of `build_mesh`, the single public entry point of the crate.
`n`, the colour defaults, the `n == 0` and `n == 1` early returns, the four
geometry loops and the two end caps follow the source line by line; the
output buffer is the concatenation of the pieces in emission order. -/
def build_mesh (ops : Ops α) (points widths color : List α) :
    Option (List α) :=
  let n := points.length / 2
  if n = 0 then some [] else
  let r := color.getD 0 0
  let g := color.getD 1 0
  let b := color.getD 2 0
  let a := color.getD 3 1
  if n = 1 then do
    let radius := widths.getD 0 1 * (1 / 2)
    let px ← points[0]?
    let py ← points[1]?
    some (circle_mesh ops px py radius r g b a)
  else do
    let dirs ← (List.range (n - 1)).mapM (seg_dir ops points)
    let norms := dirs.map norm_of
    let offs ← (List.range n).mapM (offset_at ops points widths norms n)
    let quads ← (List.range (n - 1)).mapM (quad_at offs r g b a)
    let fans ← (List.range' 1 (n - 1 - 1)).mapM
      (fan_at ops points widths dirs offs r g b a)
    let sx ← points[0]?
    let sy ← points[1]?
    let ex ← points[(n - 1) * 2]?
    let ey ← points[(n - 1) * 2 + 1]?
    let n0 ← norms[0]?
    let n1 ← norms[n - 2]?
    some (quads.flatten ++ fans.flatten ++
      cap_mesh ops (sx, sy) n0 (widths.getD 0 1 * (1 / 2)) r g b a ++
      cap_mesh ops (ex, ey) n1 (widths.getD (n - 1) 1 * (1 / 2)) r g b a)

/-! ## Concrete executable instance used by witnesses -/

/-- Concrete rational stand-in for the transcendental primitives, used only
to evaluate the embedding at witness inputs; its values agree with the true
`sqrt`/`atan2` at the arguments those witnesses reach. -/
def testOps : Ops ℚ where
  sqrt x := if x = 4 then 2 else if x = 1 then 1 else 0
  cos _ := 0
  sin _ := 0
  atan2 y x :=
    if y = 1 ∧ x = 0 then fPI / 2
    else if y = -1 ∧ x = 0 then -(fPI / 2) else 0

/-- Vertex positions `(x, y)` of an interleaved 6-scalar vertex buffer. -/
def meshVertices : List α → List (α × α)
  | x :: y :: _ :: _ :: _ :: _ :: rest => (x, y) :: meshVertices rest
  | _ => []

/-- Reflection of `v` across the line through `c` with (unit) direction
`u`. -/
def reflAcross (c u v : α × α) : α × α :=
  (c.1 + 2 * ((v.1 - c.1) * u.1 + (v.2 - c.2) * u.2) * u.1 - (v.1 - c.1),
   c.2 + 2 * ((v.1 - c.1) * u.1 + (v.2 - c.2) * u.2) * u.2 - (v.2 - c.2))

/-- The genuine real-valued primitives: `sqrt`, `cos`, `sin` and `atan2`
given by the complex argument (`atan2 y x = arg (x + y i)`), matching the
`f32` functions exactly up to rounding. -/
noncomputable def realOps : Ops ℝ where
  sqrt := Real.sqrt
  cos := Real.cos
  sin := Real.sin
  atan2 y x := Complex.arg ⟨x, y⟩

/-- Triangle count of the unit cap at the origin with upward normal. -/
noncomputable def capS : ℕ := max (⌈Real.pi / (fPI / 10)⌉).toNat 6

/-- Arc sample angles of that cap. -/
noncomputable def capTheta (k : ℕ) : ℝ :=
  -(Real.pi / 2) + Real.pi * (k : ℝ) / (capS : ℝ)

/-! ## Generic helper lemmas about `Option`-valued `mapM` -/

/-- A `mapM` over `Option` succeeds as soon as every element succeeds, and
the result has the same length. -/
theorem mapM_isSome_of_forall {β γ : Type} (f : β → Option γ) :
    ∀ l : List β, (∀ x ∈ l, (f x).isSome) →
      ∃ ys, l.mapM f = some ys ∧ ys.length = l.length := by
  intro l
  induction l with
  | nil => intro _; exact ⟨[], List.mapM_nil f, rfl⟩
  | cons x xs ih =>
    intro h
    obtain ⟨y, hy⟩ := Option.isSome_iff_exists.mp (h x (by simp))
    obtain ⟨ys, hys, hlen⟩ := ih (fun z hz => h z (by simp [hz]))
    refine ⟨y :: ys, ?_, by simp [hlen]⟩
    rw [List.mapM_cons, hy, hys]
    rfl

/-- Membership in the result of a successful `mapM` comes from membership in
the source. -/
theorem mem_of_mapM {β γ : Type} (f : β → Option γ) :
    ∀ (l : List β) (ys : List γ), l.mapM f = some ys →
      ∀ y ∈ ys, ∃ x ∈ l, f x = some y := by
  intro l
  induction l with
  | nil =>
    intro ys h y hy
    rw [List.mapM_nil] at h
    obtain rfl : ([] : List γ) = ys := by simpa using h
    simp at hy
  | cons x xs ih =>
    intro ys h y hy
    rw [List.mapM_cons] at h
    obtain ⟨z, hz, h⟩ := Option.bind_eq_some.mp h
    obtain ⟨zs, hzs, h⟩ := Option.bind_eq_some.mp h
    obtain rfl : z :: zs = ys := by simpa using h
    rcases List.mem_cons.mp hy with hy | hy
    · exact ⟨x, by simp, hy ▸ hz⟩
    · obtain ⟨w, hw, hfw⟩ := ih zs hzs y hy
      exact ⟨w, by simp [hw], hfw⟩

/-- A successful `mapM` preserves lengths. -/
theorem length_of_mapM {β γ : Type} (f : β → Option γ) :
    ∀ (l : List β) (ys : List γ), l.mapM f = some ys →
      ys.length = l.length := by
  intro l
  induction l with
  | nil =>
    intro ys h
    rw [List.mapM_nil] at h
    obtain rfl : ([] : List γ) = ys := by simpa using h
    rfl
  | cons x xs ih =>
    intro ys h
    rw [List.mapM_cons] at h
    obtain ⟨z, _, h⟩ := Option.bind_eq_some.mp h
    obtain ⟨zs, hzs, h⟩ := Option.bind_eq_some.mp h
    obtain rfl : z :: zs = ys := by simpa using h
    simp [ih zs hzs]

/-- Index-wise reading of a successful `mapM`. -/
theorem getElem?_of_mapM {β γ : Type} (f : β → Option γ) :
    ∀ (l : List β) (ys : List γ), l.mapM f = some ys →
      ∀ (i : ℕ) (x : β), l[i]? = some x →
        ∃ y, ys[i]? = some y ∧ f x = some y := by
  intro l
  induction l with
  | nil => intro ys _ i x hx; simp at hx
  | cons z zs ih =>
    intro ys h i x hx
    rw [List.mapM_cons] at h
    obtain ⟨w, hw, h⟩ := Option.bind_eq_some.mp h
    obtain ⟨ws, hws, h⟩ := Option.bind_eq_some.mp h
    obtain rfl : w :: ws = ys := by simpa using h
    cases i with
    | zero =>
      obtain rfl : z = x := by simpa using hx
      exact ⟨w, by simp, hw⟩
    | succ j =>
      obtain ⟨y, hy, hfy⟩ := ih ws hws j x (by simpa using hx)
      exact ⟨y, by simpa using hy, hfy⟩

/-- `mapM` only depends on the values of the function on the list. -/
theorem mapM_congr_mem {β γ : Type} {f g : β → Option γ} :
    ∀ {l : List β}, (∀ x ∈ l, f x = g x) → l.mapM f = l.mapM g := by
  intro l
  induction l with
  | nil => intro _; rfl
  | cons x xs ih =>
    intro h
    rw [List.mapM_cons, List.mapM_cons, h x (by simp),
      ih (fun z hz => h z (by simp [hz]))]

/-! ## Totality of the individual pipeline stages -/

/-- The direction of segment `i` is defined whenever the four coordinates it
reads are in bounds. -/
theorem seg_dir_isSome (ops : Ops α) (points : List α) (i : ℕ)
    (h : (i + 1) * 2 + 1 < points.length) : (seg_dir ops points i).isSome := by
  have h0 : i * 2 < points.length := by omega
  have h1 : i * 2 + 1 < points.length := by omega
  have h2 : (i + 1) * 2 < points.length := by omega
  simp [seg_dir, List.getElem?_eq_getElem, h0, h1, h2, h]

/-- The offset data of point `i` is defined for every `i < n` in the main
path. -/
theorem offset_at_isSome (ops : Ops α) (points widths : List α)
    (norms : List (α × α)) (n i : ℕ) (hn : 2 ≤ n) (hi : i < n)
    (hlen : 2 * n ≤ points.length) (hnorms : norms.length = n - 1) :
    (offset_at ops points widths norms n i).isSome := by
  have hp0 : i * 2 < points.length := by omega
  have hp1 : i * 2 + 1 < points.length := by omega
  obtain ⟨px, hpx⟩ : ∃ v, points[i * 2]? = some v :=
    ⟨_, List.getElem?_eq_getElem hp0⟩
  obtain ⟨py, hpy⟩ : ∃ v, points[i * 2 + 1]? = some v :=
    ⟨_, List.getElem?_eq_getElem hp1⟩
  rcases eq_or_ne i 0 with rfl | hi0
  · obtain ⟨v0, hv0⟩ : ∃ v, norms[0]? = some v :=
      ⟨_, List.getElem?_eq_getElem (by omega)⟩
    have hpx' : points[(0 : ℕ)]? = some px := by simpa using hpx
    have hpy' : points[(1 : ℕ)]? = some py := by simpa using hpy
    simp [offset_at, hpx', hpy', hv0]
  · rcases eq_or_ne i (n - 1) with heq | hine
    · subst heq
      obtain ⟨v0, hv0⟩ : ∃ v, norms[n - 2]? = some v :=
        ⟨_, List.getElem?_eq_getElem (by omega)⟩
      simp [offset_at, hpx, hpy, hv0, hi0]
    · obtain ⟨v0, hv0⟩ : ∃ v, norms[i - 1]? = some v :=
        ⟨_, List.getElem?_eq_getElem (by omega)⟩
      obtain ⟨v1, hv1⟩ : ∃ v, norms[i]? = some v :=
        ⟨_, List.getElem?_eq_getElem (by omega)⟩
      simp only [offset_at, hpx, hpy, hv0, hv1, Option.bind_eq_bind,
        Option.some_bind, if_neg hi0, if_neg hine]
      split_ifs <;> simp

/-- The quad of segment `i` is defined whenever both its offset records
exist. -/
theorem quad_at_isSome (offs : List (OffsetData α)) (r g b a : α) (i : ℕ)
    (h : i + 1 < offs.length) : (quad_at offs r g b a i).isSome := by
  have h0 : i < offs.length := by omega
  simp [quad_at, List.getElem?_eq_getElem, h0, h]

/-- The join fan of interior point `i` is defined whenever the data it reads
is in bounds. -/
theorem fan_at_isSome (ops : Ops α) (points widths : List α)
    (dirs : List (α × α)) (offs : List (OffsetData α)) (r g b a : α) (i : ℕ)
    (hd : i < dirs.length) (hp : i * 2 + 1 < points.length)
    (ho : i < offs.length) : (fan_at ops points widths dirs offs r g b a i).isSome := by
  have hp0 : i * 2 < points.length := by omega
  have hd0 : i - 1 < dirs.length := by omega
  obtain ⟨o, hoo⟩ : ∃ o, offs[i]? = some o :=
    ⟨offs[i], List.getElem?_eq_getElem ho⟩
  simp only [fan_at, hoo, Option.some_bind]
  cases hj : o.join with
  | true => simp [hj]
  | false => simp [hj, List.getElem?_eq_getElem, hp, hp0, hd, hd0]

/-- Master decomposition of `build_mesh` on the main (`n ≥ 2`) path: all
four pipeline stages succeed and the output is the concatenation of the
segment quads, the join fans and the two end caps, in emission order. -/
theorem build_mesh_core (ops : Ops α) (points widths color : List α)
    (h2 : 2 ≤ points.length / 2) :
    ∃ (dirs : List (α × α)) (offs : List (OffsetData α))
      (quads fans : List (List α)) (sx sy ex ey : α) (nrm0 nrm1 : α × α),
      (List.range (points.length / 2 - 1)).mapM (seg_dir ops points)
        = some dirs ∧
      dirs.length = points.length / 2 - 1 ∧
      (List.range (points.length / 2)).mapM
        (offset_at ops points widths (dirs.map norm_of) (points.length / 2))
        = some offs ∧
      offs.length = points.length / 2 ∧
      (List.range (points.length / 2 - 1)).mapM
        (quad_at offs (color.getD 0 0) (color.getD 1 0) (color.getD 2 0)
          (color.getD 3 1)) = some quads ∧
      quads.length = points.length / 2 - 1 ∧
      (List.range' 1 (points.length / 2 - 1 - 1)).mapM
        (fan_at ops points widths dirs offs (color.getD 0 0) (color.getD 1 0)
          (color.getD 2 0) (color.getD 3 1)) = some fans ∧
      fans.length = points.length / 2 - 1 - 1 ∧
      points[0]? = some sx ∧ points[1]? = some sy ∧
      points[(points.length / 2 - 1) * 2]? = some ex ∧
      points[(points.length / 2 - 1) * 2 + 1]? = some ey ∧
      (dirs.map norm_of)[0]? = some nrm0 ∧
      (dirs.map norm_of)[points.length / 2 - 2]? = some nrm1 ∧
      build_mesh ops points widths color
        = some (quads.flatten ++ fans.flatten ++
          cap_mesh ops (sx, sy) nrm0 (widths.getD 0 1 * (1 / 2))
            (color.getD 0 0) (color.getD 1 0) (color.getD 2 0)
            (color.getD 3 1) ++
          cap_mesh ops (ex, ey) nrm1
            (widths.getD (points.length / 2 - 1) 1 * (1 / 2))
            (color.getD 0 0) (color.getD 1 0) (color.getD 2 0)
            (color.getD 3 1)) := by
  set n := points.length / 2 with hn
  have hlen : 2 * n ≤ points.length := by
    have := Nat.div_mul_le_self points.length 2
    omega
  obtain ⟨dirs, hdirs, hdl⟩ :=
    mapM_isSome_of_forall (seg_dir ops points) (List.range (n - 1))
      (fun i hi => seg_dir_isSome ops points i (by
        have : i < n - 1 := List.mem_range.mp hi
        omega))
  rw [List.length_range] at hdl
  have hnl : (dirs.map norm_of).length = n - 1 := by simp [hdl]
  obtain ⟨offs, hoffs, hol⟩ :=
    mapM_isSome_of_forall (offset_at ops points widths (dirs.map norm_of) n)
      (List.range n)
      (fun i hi => offset_at_isSome ops points widths (dirs.map norm_of) n i
        h2 (List.mem_range.mp hi) hlen hnl)
  rw [List.length_range] at hol
  obtain ⟨quads, hquads, hql⟩ :=
    mapM_isSome_of_forall
      (quad_at offs (color.getD 0 0) (color.getD 1 0) (color.getD 2 0)
        (color.getD 3 1)) (List.range (n - 1))
      (fun i hi => quad_at_isSome offs _ _ _ _ i (by
        have : i < n - 1 := List.mem_range.mp hi
        omega))
  rw [List.length_range] at hql
  obtain ⟨fans, hfans, hfl⟩ :=
    mapM_isSome_of_forall
      (fan_at ops points widths dirs offs (color.getD 0 0) (color.getD 1 0)
        (color.getD 2 0) (color.getD 3 1)) (List.range' 1 (n - 1 - 1))
      (fun i hi => by
        have h1i := List.mem_range'_1.mp hi
        exact fan_at_isSome ops points widths dirs offs _ _ _ _ i
          (by omega) (by omega) (by omega))
  rw [List.length_range'] at hfl
  obtain ⟨sx, hsx⟩ : ∃ v, points[0]? = some v :=
    ⟨_, List.getElem?_eq_getElem (by omega)⟩
  obtain ⟨sy, hsy⟩ : ∃ v, points[1]? = some v :=
    ⟨_, List.getElem?_eq_getElem (by omega)⟩
  obtain ⟨ex, hex⟩ : ∃ v, points[(n - 1) * 2]? = some v :=
    ⟨_, List.getElem?_eq_getElem (by omega)⟩
  obtain ⟨ey, hey⟩ : ∃ v, points[(n - 1) * 2 + 1]? = some v :=
    ⟨_, List.getElem?_eq_getElem (by omega)⟩
  obtain ⟨nrm0, hn0⟩ : ∃ v, (dirs.map norm_of)[0]? = some v :=
    ⟨_, List.getElem?_eq_getElem (by omega)⟩
  obtain ⟨nrm1, hn1⟩ : ∃ v, (dirs.map norm_of)[n - 2]? = some v :=
    ⟨_, List.getElem?_eq_getElem (by omega)⟩
  refine ⟨dirs, offs, quads, fans, sx, sy, ex, ey, nrm0, nrm1, hdirs, hdl,
    hoffs, hol, hquads, hql, hfans, hfl, hsx, hsy, hex, hey, hn0, hn1, ?_⟩
  have hne0 : ¬ n = 0 := by omega
  have hne1 : ¬ n = 1 := by omega
  simp only [build_mesh, ← hn, if_neg hne0, if_neg hne1, hdirs, hoffs,
    hquads, hfans, hsx, hsy, hex, hey, hn0, hn1, Option.bind_eq_bind,
    Option.some_bind]

/-! ## The triangle-stream invariant of emitted buffers -/

/-- A buffer built as a concatenation of `push_tri` blocks that all carry
the same colour `(r, g, b, a)`.  Every buffer the engine emits has this
shape, since `push_tri` is its only write primitive. -/
inductive TriStream (r g b a : α) : List α → Prop
  | nil : TriStream r g b a []
  | cons (p q t : α × α) {l : List α} :
      TriStream r g b a l → TriStream r g b a (push_tri p q t r g b a ++ l)

theorem push_tri_length (p q t : α × α) (r g b a : α) :
    (push_tri p q t r g b a).length = 18 := rfl

theorem TriStream.append {r g b a : α} {l l' : List α}
    (h : TriStream r g b a l) (h' : TriStream r g b a l') :
    TriStream r g b a (l ++ l') := by
  induction h with
  | nil => simpa using h'
  | cons p q t hl ih =>
    rw [List.append_assoc]
    exact TriStream.cons p q t ih

theorem TriStream.single (r g b a : α) (p q t : α × α) :
    TriStream r g b a (push_tri p q t r g b a) := by
  simpa using TriStream.cons (r := r) (g := g) (b := b) (a := a) p q t
    TriStream.nil

theorem TriStream.flatMap_of {β : Type} {r g b a : α} (L : List β)
    (f : β → List α) (hf : ∀ s ∈ L, TriStream r g b a (f s)) :
    TriStream r g b a (L.flatMap f) := by
  induction L with
  | nil => exact TriStream.nil
  | cons x xs ih =>
    rw [List.flatMap_cons]
    exact (hf x (by simp)).append (ih fun s hs => hf s (by simp [hs]))

theorem TriStream.flatten_of {r g b a : α} (L : List (List α))
    (hf : ∀ x ∈ L, TriStream r g b a x) :
    TriStream r g b a L.flatten := by
  induction L with
  | nil => exact TriStream.nil
  | cons x xs ih =>
    rw [List.flatten_cons]
    exact (hf x (by simp)).append (ih fun s hs => hf s (by simp [hs]))

/-- Every `TriStream` buffer has length a multiple of 18. -/
theorem TriStream.length_mod18 {r g b a : α} {l : List α}
    (h : TriStream r g b a l) : l.length % 18 = 0 := by
  induction h with
  | nil => rfl
  | cons p q t hl ih =>
    rw [List.length_append, push_tri_length]
    omega

/-- In a `TriStream` buffer, vertex `j` carries exactly the stream colour in
its scalar slots `2`, `3`, `4`, `5`. -/
theorem TriStream.color_at {r g b a : α} {l : List α}
    (h : TriStream r g b a l) :
    ∀ j : ℕ, 6 * j + 5 < l.length →
      l[6 * j + 2]? = some r ∧ l[6 * j + 3]? = some g ∧
      l[6 * j + 4]? = some b ∧ l[6 * j + 5]? = some a := by
  induction h with
  | nil => intro j hj; simp at hj
  | cons p q t hl ih =>
    rename_i l'
    intro j hj
    rcases Nat.lt_or_ge j 3 with hj3 | hj3
    · interval_cases j <;> simp [push_tri, push_vertex]
    · obtain ⟨k, rfl⟩ : ∃ k, j = k + 3 := ⟨j - 3, by omega⟩
      have hlen : 6 * k + 5 < l'.length := by
        rw [List.length_append, push_tri_length] at hj
        omega
      have e : ∀ c : ℕ, (push_tri p q t r g b a ++ l')[6 * (k + 3) + c]?
          = l'[6 * k + c]? := by
        intro c
        rw [List.getElem?_append_right (by rw [push_tri_length]; omega)]
        rw [push_tri_length,
          show 6 * (k + 3) + c - 18 = 6 * k + c by omega]
      obtain ⟨h2, h3, h4, h5⟩ := ih k hlen
      exact ⟨(e 2).trans h2, (e 3).trans h3, (e 4).trans h4, (e 5).trans h5⟩

theorem circle_mesh_triStream (ops : Ops α) (cx cy radius r g b a : α) :
    TriStream r g b a (circle_mesh ops cx cy radius r g b a) := by
  unfold circle_mesh
  exact TriStream.flatMap_of _ _ fun s _ => TriStream.single r g b a _ _ _

theorem cap_mesh_triStream (ops : Ops α) (c nrm : α × α) (radius r g b a : α) :
    TriStream r g b a (cap_mesh ops c nrm radius r g b a) := by
  unfold cap_mesh
  exact TriStream.flatMap_of _ _ fun s _ => TriStream.single r g b a _ _ _

theorem fan_body_triStream (ops : Ops α) (px py radius : α) (d0 d1 : α × α)
    (r g b a : α) : TriStream r g b a (fan_body ops px py radius d0 d1 r g b a) := by
  unfold fan_body
  exact TriStream.flatMap_of _ _ fun s _ => TriStream.single r g b a _ _ _

theorem quad_at_triStream (offs : List (OffsetData α)) (r g b a : α) (i : ℕ)
    (q : List α) (h : quad_at offs r g b a i = some q) : TriStream r g b a q := by
  simp only [quad_at, Option.bind_eq_bind] at h
  obtain ⟨o0, ho0, h⟩ := Option.bind_eq_some.mp h
  obtain ⟨o1, ho1, h⟩ := Option.bind_eq_some.mp h
  obtain rfl := Option.some_inj.mp h
  exact (TriStream.single r g b a _ _ _).append (TriStream.single r g b a _ _ _)

theorem fan_at_triStream (ops : Ops α) (points widths : List α)
    (dirs : List (α × α)) (offs : List (OffsetData α)) (r g b a : α) (i : ℕ)
    (f : List α) (h : fan_at ops points widths dirs offs r g b a i = some f) :
    TriStream r g b a f := by
  simp only [fan_at, Option.bind_eq_bind] at h
  obtain ⟨o, ho, h⟩ := Option.bind_eq_some.mp h
  by_cases hj : o.join = true
  · rw [if_pos hj] at h
    obtain rfl := Option.some_inj.mp h
    exact TriStream.nil
  · rw [if_neg hj] at h
    obtain ⟨px, hpx, h⟩ := Option.bind_eq_some.mp h
    obtain ⟨py, hpy, h⟩ := Option.bind_eq_some.mp h
    obtain ⟨d0, hd0, h⟩ := Option.bind_eq_some.mp h
    obtain ⟨d1, hd1, h⟩ := Option.bind_eq_some.mp h
    obtain rfl := Option.some_inj.mp h
    exact fan_body_triStream ops px py _ d0 d1 r g b a

/-- Every buffer `build_mesh` returns is a concatenation of equally coloured
`push_tri` blocks. -/
theorem build_mesh_triStream (ops : Ops α) (points widths color : List α)
    (l : List α) (h : build_mesh ops points widths color = some l) :
    TriStream (color.getD 0 0) (color.getD 1 0) (color.getD 2 0)
      (color.getD 3 1) l := by
  by_cases h0 : points.length / 2 = 0
  · rw [build_mesh] at h
    simp only [h0, if_pos] at h
    obtain rfl := Option.some_inj.mp h
    exact TriStream.nil
  · by_cases h1 : points.length / 2 = 1
    · rw [build_mesh] at h
      simp only [h1, if_neg h0] at h
      have hlen2 : 2 ≤ points.length := by omega
      rw [List.getElem?_eq_getElem (by omega),
        List.getElem?_eq_getElem (by omega)] at h
      simp only [Option.bind_eq_bind, Option.some_bind] at h
      obtain rfl := Option.some_inj.mp h
      exact circle_mesh_triStream ops _ _ _ _ _ _ _
    · obtain ⟨dirs, offs, quads, fans, sx, sy, ex, ey, nrm0, nrm1, hdirs, _,
        hoffs, _, hquads, _, hfans, _, _, _, _, _, _, _, heq⟩ :=
        build_mesh_core ops points widths color (by omega)
      rw [heq] at h
      obtain rfl := Option.some_inj.mp h
      refine (((TriStream.flatten_of quads ?_).append
        (TriStream.flatten_of fans ?_)).append
        (cap_mesh_triStream ops _ _ _ _ _ _ _)).append
        (cap_mesh_triStream ops _ _ _ _ _ _ _)
      · intro q hq
        obtain ⟨i, _, hqi⟩ := mem_of_mapM _ _ _ hquads q hq
        exact quad_at_triStream offs _ _ _ _ i q hqi
      · intro f hf
        obtain ⟨i, _, hfi⟩ := mem_of_mapM _ _ _ hfans f hf
        exact fan_at_triStream ops points widths dirs offs _ _ _ _ i f hfi

/-! ## Properties of the wrap-around loop and the arc step counts -/

theorem wrap_measure_lt (a0 a1 : α) (h : a1 < a0) :
    (⌈(a0 - (a1 + fPI * 2)) / (fPI * 2)⌉).toNat
      < (⌈(a0 - a1) / (fPI * 2)⌉).toNat := by
  have hc : (0 : α) < fPI * 2 := by norm_num [fPI]
  have hpos : (0 : α) < (a0 - a1) / (fPI * 2) := div_pos (by linarith) hc
  have hone : (1 : ℤ) ≤ ⌈(a0 - a1) / (fPI * 2)⌉ := Int.ceil_pos.mpr hpos
  have hdiv : (a0 - (a1 + fPI * 2)) / (fPI * 2)
      = (a0 - a1) / (fPI * 2) - 1 := by
    rw [show a0 - (a1 + fPI * 2) = (a0 - a1) - fPI * 2 by ring, sub_div,
      div_self (ne_of_gt hc)]
  rw [hdiv, Int.ceil_sub_one]
  omega

theorem wrap_a1_ge_aux (a0 : α) :
    ∀ (k : ℕ) (a1 : α), (⌈(a0 - a1) / (fPI * 2)⌉).toNat = k →
      a0 ≤ wrap_a1 a0 a1 := by
  intro k
  induction k using Nat.strong_induction_on with
  | _ k ih =>
    intro a1 hk
    rw [wrap_a1]
    by_cases h : a1 < a0
    · rw [if_pos h]
      subst hk
      exact ih _ (wrap_measure_lt a0 a1 h) _ rfl
    · rw [if_neg h]
      exact le_of_not_lt h

/-- The wrapped end angle is never below the start angle, hence the swept
angle is nonnegative. -/
theorem wrap_a1_ge (a0 a1 : α) : a0 ≤ wrap_a1 a0 a1 :=
  wrap_a1_ge_aux a0 _ a1 rfl

/-- Arithmetic core of the step-size bounds: with `steps =
max (ceil (angle / c)) m` subdivisions of a nonnegative `angle`, each step
is at most `c`. -/
theorem angle_step_le (angle c : α) (hc : 0 < c) (h0 : 0 ≤ angle) (m : ℕ)
    (hm : 0 < m) :
    angle / ((max (⌈angle / c⌉).toNat m : ℕ) : α) ≤ c := by
  set k : ℕ := max (⌈angle / c⌉).toNat m with hk
  have hkpos : 0 < k := lt_of_lt_of_le hm (le_max_right _ _)
  have hkc : (0 : α) < (k : α) := by exact_mod_cast hkpos
  have hnn : (0 : ℤ) ≤ ⌈angle / c⌉ := Int.ceil_nonneg (div_nonneg h0 hc.le)
  have h1 : angle / c ≤ ((⌈angle / c⌉).toNat : α) := by
    calc angle / c ≤ (⌈angle / c⌉ : α) := Int.le_ceil _
    _ = ((⌈angle / c⌉).toNat : α) := by
        exact_mod_cast (Int.toNat_of_nonneg hnn).symm
  have h2 : angle / c ≤ (k : α) := by
    refine h1.trans ?_
    exact_mod_cast Nat.le_max_left _ m
  rw [div_le_iff₀ hkc]
  calc angle = angle / c * c := by field_simp
  _ ≤ (k : α) * c := by
      exact mul_le_mul_of_nonneg_right h2 hc.le
  _ = c * (k : α) := by ring

/-- Length of a `flatMap` whose blocks all have length `m`. -/
theorem length_flatMap_const {β : Type} (L : List β) (f : β → List α) (m : ℕ)
    (hf : ∀ s ∈ L, (f s).length = m) : (L.flatMap f).length = m * L.length := by
  induction L with
  | nil => simp
  | cons x xs ih =>
    rw [List.flatMap_cons, List.length_append, hf x (by simp),
      ih fun s hs => hf s (by simp [hs]), List.length_cons]
    ring

/-- Indexing into a `flatMap` whose blocks all have length `m`. -/
theorem getElem?_flatMap_range' (f : ℕ → List α) (m : ℕ)
    (hf : ∀ s, (f s).length = m) :
    ∀ (k s t c : ℕ), t < k → c < m →
      ((List.range' s k).flatMap f)[m * t + c]? = (f (s + t))[c]? := by
  intro k
  induction k with
  | zero => intro s t c ht; omega
  | succ k ih =>
    intro s t c ht hc
    rw [List.range'_succ, List.flatMap_cons]
    cases t with
    | zero =>
      rw [List.getElem?_append_left (by rw [hf]; omega)]
      simp
    | succ j =>
      rw [List.getElem?_append_right (by rw [hf, Nat.mul_succ]; omega), hf,
        show m * (j + 1) + c - m = m * j + c by rw [Nat.mul_succ]; omega]
      rw [ih (s + 1) j c (by omega) hc,
        show s + 1 + j = s + (j + 1) by omega]

/-- Indexing into a `flatMap` over `List.range`. -/
theorem getElem?_flatMap_range (f : ℕ → List α) (m : ℕ)
    (hf : ∀ s, (f s).length = m) (k t c : ℕ) (ht : t < k) (hc : c < m) :
    ((List.range k).flatMap f)[m * t + c]? = (f t)[c]? := by
  rw [List.range_eq_range', getElem?_flatMap_range' f m hf k 0 t c ht hc,
    Nat.zero_add]

/-! ## Totality of `build_mesh` and canonical equations for the stages -/

/-- `build_mesh` always returns a value: every slice index it performs is in
bounds and no other failure source exists. -/
theorem build_mesh_total (ops : Ops α) (points widths color : List α) :
    (build_mesh ops points widths color).isSome := by
  by_cases h0 : points.length / 2 = 0
  · rw [build_mesh]
    simp [h0]
  · by_cases h1 : points.length / 2 = 1
    · rw [build_mesh]
      simp only [h1, if_neg h0]
      rw [List.getElem?_eq_getElem (by omega),
        List.getElem?_eq_getElem (by omega)]
      simp
    · obtain ⟨_, _, _, _, _, _, _, _, _, _, _, _, _, _, _, _, _, _, _, _, _,
        _, _, _, heq⟩ := build_mesh_core ops points widths color (by omega)
      rw [heq]
      rfl

/-- Canonical form of the interior-point branch of `offset_at` once all
reads are resolved. -/
theorem offset_at_interior (ops : Ops α) (points widths : List α)
    (norms : List (α × α)) (n i : ℕ) (hi0 : i ≠ 0) (hin : i ≠ n - 1)
    (px py : α) (n0 n1 : α × α)
    (hpx : points[i * 2]? = some px) (hpy : points[i * 2 + 1]? = some py)
    (hn0 : norms[i - 1]? = some n0) (hn1 : norms[i]? = some n1) :
    offset_at ops points widths norms n i =
      (if ops.sqrt ((n0.1 + n1.1) * (n0.1 + n1.1) + (n0.2 + n1.2) * (n0.2 + n1.2))
          < 1 / 10000 then
        some ⟨(px + n0.1 * (widths.getD i 1 * (1 / 2)),
               py + n0.2 * (widths.getD i 1 * (1 / 2))),
              (px - n0.1 * (widths.getD i 1 * (1 / 2)),
               py - n0.2 * (widths.getD i 1 * (1 / 2))),
              (px + n1.1 * (widths.getD i 1 * (1 / 2)),
               py + n1.2 * (widths.getD i 1 * (1 / 2))),
              (px - n1.1 * (widths.getD i 1 * (1 / 2)),
               py - n1.2 * (widths.getD i 1 * (1 / 2))), false⟩
      else if |if 1 / 1000000 <
            |(n0.1 + n1.1) / ops.sqrt ((n0.1 + n1.1) * (n0.1 + n1.1)
                + (n0.2 + n1.2) * (n0.2 + n1.2)) * n1.1
              + (n0.2 + n1.2) / ops.sqrt ((n0.1 + n1.1) * (n0.1 + n1.1)
                + (n0.2 + n1.2) * (n0.2 + n1.2)) * n1.2| then
            widths.getD i 1 * (1 / 2) /
              ((n0.1 + n1.1) / ops.sqrt ((n0.1 + n1.1) * (n0.1 + n1.1)
                  + (n0.2 + n1.2) * (n0.2 + n1.2)) * n1.1
                + (n0.2 + n1.2) / ops.sqrt ((n0.1 + n1.1) * (n0.1 + n1.1)
                  + (n0.2 + n1.2) * (n0.2 + n1.2)) * n1.2)
          else widths.getD i 1 * (1 / 2)| ≤ 4 * (widths.getD i 1 * (1 / 2))
      then
        some ⟨(px + (n0.1 + n1.1) / ops.sqrt ((n0.1 + n1.1) * (n0.1 + n1.1)
                + (n0.2 + n1.2) * (n0.2 + n1.2)) *
                if 1 / 1000000 <
                  |(n0.1 + n1.1) / ops.sqrt ((n0.1 + n1.1) * (n0.1 + n1.1)
                      + (n0.2 + n1.2) * (n0.2 + n1.2)) * n1.1
                    + (n0.2 + n1.2) / ops.sqrt ((n0.1 + n1.1) * (n0.1 + n1.1)
                      + (n0.2 + n1.2) * (n0.2 + n1.2)) * n1.2| then
                  widths.getD i 1 * (1 / 2) /
                    ((n0.1 + n1.1) / ops.sqrt ((n0.1 + n1.1) * (n0.1 + n1.1)
                        + (n0.2 + n1.2) * (n0.2 + n1.2)) * n1.1
                      + (n0.2 + n1.2) / ops.sqrt ((n0.1 + n1.1) * (n0.1 + n1.1)
                        + (n0.2 + n1.2) * (n0.2 + n1.2)) * n1.2)
                else widths.getD i 1 * (1 / 2),
               py + (n0.2 + n1.2) / ops.sqrt ((n0.1 + n1.1) * (n0.1 + n1.1)
                + (n0.2 + n1.2) * (n0.2 + n1.2)) *
                if 1 / 1000000 <
                  |(n0.1 + n1.1) / ops.sqrt ((n0.1 + n1.1) * (n0.1 + n1.1)
                      + (n0.2 + n1.2) * (n0.2 + n1.2)) * n1.1
                    + (n0.2 + n1.2) / ops.sqrt ((n0.1 + n1.1) * (n0.1 + n1.1)
                      + (n0.2 + n1.2) * (n0.2 + n1.2)) * n1.2| then
                  widths.getD i 1 * (1 / 2) /
                    ((n0.1 + n1.1) / ops.sqrt ((n0.1 + n1.1) * (n0.1 + n1.1)
                        + (n0.2 + n1.2) * (n0.2 + n1.2)) * n1.1
                      + (n0.2 + n1.2) / ops.sqrt ((n0.1 + n1.1) * (n0.1 + n1.1)
                        + (n0.2 + n1.2) * (n0.2 + n1.2)) * n1.2)
                else widths.getD i 1 * (1 / 2)),
              (px - (n0.1 + n1.1) / ops.sqrt ((n0.1 + n1.1) * (n0.1 + n1.1)
                + (n0.2 + n1.2) * (n0.2 + n1.2)) *
                if 1 / 1000000 <
                  |(n0.1 + n1.1) / ops.sqrt ((n0.1 + n1.1) * (n0.1 + n1.1)
                      + (n0.2 + n1.2) * (n0.2 + n1.2)) * n1.1
                    + (n0.2 + n1.2) / ops.sqrt ((n0.1 + n1.1) * (n0.1 + n1.1)
                      + (n0.2 + n1.2) * (n0.2 + n1.2)) * n1.2| then
                  widths.getD i 1 * (1 / 2) /
                    ((n0.1 + n1.1) / ops.sqrt ((n0.1 + n1.1) * (n0.1 + n1.1)
                        + (n0.2 + n1.2) * (n0.2 + n1.2)) * n1.1
                      + (n0.2 + n1.2) / ops.sqrt ((n0.1 + n1.1) * (n0.1 + n1.1)
                        + (n0.2 + n1.2) * (n0.2 + n1.2)) * n1.2)
                else widths.getD i 1 * (1 / 2),
               py - (n0.2 + n1.2) / ops.sqrt ((n0.1 + n1.1) * (n0.1 + n1.1)
                + (n0.2 + n1.2) * (n0.2 + n1.2)) *
                if 1 / 1000000 <
                  |(n0.1 + n1.1) / ops.sqrt ((n0.1 + n1.1) * (n0.1 + n1.1)
                      + (n0.2 + n1.2) * (n0.2 + n1.2)) * n1.1
                    + (n0.2 + n1.2) / ops.sqrt ((n0.1 + n1.1) * (n0.1 + n1.1)
                      + (n0.2 + n1.2) * (n0.2 + n1.2)) * n1.2| then
                  widths.getD i 1 * (1 / 2) /
                    ((n0.1 + n1.1) / ops.sqrt ((n0.1 + n1.1) * (n0.1 + n1.1)
                        + (n0.2 + n1.2) * (n0.2 + n1.2)) * n1.1
                      + (n0.2 + n1.2) / ops.sqrt ((n0.1 + n1.1) * (n0.1 + n1.1)
                        + (n0.2 + n1.2) * (n0.2 + n1.2)) * n1.2)
                else widths.getD i 1 * (1 / 2)),
              (px + (n0.1 + n1.1) / ops.sqrt ((n0.1 + n1.1) * (n0.1 + n1.1)
                + (n0.2 + n1.2) * (n0.2 + n1.2)) *
                if 1 / 1000000 <
                  |(n0.1 + n1.1) / ops.sqrt ((n0.1 + n1.1) * (n0.1 + n1.1)
                      + (n0.2 + n1.2) * (n0.2 + n1.2)) * n1.1
                    + (n0.2 + n1.2) / ops.sqrt ((n0.1 + n1.1) * (n0.1 + n1.1)
                      + (n0.2 + n1.2) * (n0.2 + n1.2)) * n1.2| then
                  widths.getD i 1 * (1 / 2) /
                    ((n0.1 + n1.1) / ops.sqrt ((n0.1 + n1.1) * (n0.1 + n1.1)
                        + (n0.2 + n1.2) * (n0.2 + n1.2)) * n1.1
                      + (n0.2 + n1.2) / ops.sqrt ((n0.1 + n1.1) * (n0.1 + n1.1)
                        + (n0.2 + n1.2) * (n0.2 + n1.2)) * n1.2)
                else widths.getD i 1 * (1 / 2),
               py + (n0.2 + n1.2) / ops.sqrt ((n0.1 + n1.1) * (n0.1 + n1.1)
                + (n0.2 + n1.2) * (n0.2 + n1.2)) *
                if 1 / 1000000 <
                  |(n0.1 + n1.1) / ops.sqrt ((n0.1 + n1.1) * (n0.1 + n1.1)
                      + (n0.2 + n1.2) * (n0.2 + n1.2)) * n1.1
                    + (n0.2 + n1.2) / ops.sqrt ((n0.1 + n1.1) * (n0.1 + n1.1)
                      + (n0.2 + n1.2) * (n0.2 + n1.2)) * n1.2| then
                  widths.getD i 1 * (1 / 2) /
                    ((n0.1 + n1.1) / ops.sqrt ((n0.1 + n1.1) * (n0.1 + n1.1)
                        + (n0.2 + n1.2) * (n0.2 + n1.2)) * n1.1
                      + (n0.2 + n1.2) / ops.sqrt ((n0.1 + n1.1) * (n0.1 + n1.1)
                        + (n0.2 + n1.2) * (n0.2 + n1.2)) * n1.2)
                else widths.getD i 1 * (1 / 2)),
              (px - (n0.1 + n1.1) / ops.sqrt ((n0.1 + n1.1) * (n0.1 + n1.1)
                + (n0.2 + n1.2) * (n0.2 + n1.2)) *
                if 1 / 1000000 <
                  |(n0.1 + n1.1) / ops.sqrt ((n0.1 + n1.1) * (n0.1 + n1.1)
                      + (n0.2 + n1.2) * (n0.2 + n1.2)) * n1.1
                    + (n0.2 + n1.2) / ops.sqrt ((n0.1 + n1.1) * (n0.1 + n1.1)
                      + (n0.2 + n1.2) * (n0.2 + n1.2)) * n1.2| then
                  widths.getD i 1 * (1 / 2) /
                    ((n0.1 + n1.1) / ops.sqrt ((n0.1 + n1.1) * (n0.1 + n1.1)
                        + (n0.2 + n1.2) * (n0.2 + n1.2)) * n1.1
                      + (n0.2 + n1.2) / ops.sqrt ((n0.1 + n1.1) * (n0.1 + n1.1)
                        + (n0.2 + n1.2) * (n0.2 + n1.2)) * n1.2)
                else widths.getD i 1 * (1 / 2),
               py - (n0.2 + n1.2) / ops.sqrt ((n0.1 + n1.1) * (n0.1 + n1.1)
                + (n0.2 + n1.2) * (n0.2 + n1.2)) *
                if 1 / 1000000 <
                  |(n0.1 + n1.1) / ops.sqrt ((n0.1 + n1.1) * (n0.1 + n1.1)
                      + (n0.2 + n1.2) * (n0.2 + n1.2)) * n1.1
                    + (n0.2 + n1.2) / ops.sqrt ((n0.1 + n1.1) * (n0.1 + n1.1)
                      + (n0.2 + n1.2) * (n0.2 + n1.2)) * n1.2| then
                  widths.getD i 1 * (1 / 2) /
                    ((n0.1 + n1.1) / ops.sqrt ((n0.1 + n1.1) * (n0.1 + n1.1)
                        + (n0.2 + n1.2) * (n0.2 + n1.2)) * n1.1
                      + (n0.2 + n1.2) / ops.sqrt ((n0.1 + n1.1) * (n0.1 + n1.1)
                        + (n0.2 + n1.2) * (n0.2 + n1.2)) * n1.2)
                else widths.getD i 1 * (1 / 2)), true⟩
      else
        some ⟨(px + n0.1 * (widths.getD i 1 * (1 / 2)),
               py + n0.2 * (widths.getD i 1 * (1 / 2))),
              (px - n0.1 * (widths.getD i 1 * (1 / 2)),
               py - n0.2 * (widths.getD i 1 * (1 / 2))),
              (px + n1.1 * (widths.getD i 1 * (1 / 2)),
               py + n1.2 * (widths.getD i 1 * (1 / 2))),
              (px - n1.1 * (widths.getD i 1 * (1 / 2)),
               py - n1.2 * (widths.getD i 1 * (1 / 2))), false⟩) := by
  simp only [offset_at, hpx, hpy, hn0, hn1, Option.bind_eq_bind,
    Option.some_bind, if_neg hi0, if_neg hin]

/-- Canonical form of `fan_at` at a miter point. -/
theorem fan_at_of_miter (ops : Ops α) (points widths : List α)
    (dirs : List (α × α)) (offs : List (OffsetData α)) (r g b a : α) (i : ℕ)
    (o : OffsetData α) (ho : offs[i]? = some o) (hj : o.join = true) :
    fan_at ops points widths dirs offs r g b a i = some [] := by
  simp [fan_at, ho, hj]

/-- Canonical form of `fan_at` at a round point. -/
theorem fan_at_of_round (ops : Ops α) (points widths : List α)
    (dirs : List (α × α)) (offs : List (OffsetData α)) (r g b a : α) (i : ℕ)
    (o : OffsetData α) (px py : α) (d0 d1 : α × α)
    (ho : offs[i]? = some o) (hj : o.join = false)
    (hpx : points[i * 2]? = some px) (hpy : points[i * 2 + 1]? = some py)
    (hd0 : dirs[i - 1]? = some d0) (hd1 : dirs[i]? = some d1) :
    fan_at ops points widths dirs offs r g b a i
      = some (fan_body ops px py (widths.getD i 1 * (1 / 2)) d0 d1 r g b a) := by
  simp [fan_at, ho, hj, hpx, hpy, hd0, hd1]

/-- Computation of `build_mesh` from given stage results (the final
assembly step of the main path). -/
theorem build_mesh_of_stages (ops : Ops α) (points widths color : List α)
    (h0 : ¬ points.length / 2 = 0) (h1 : ¬ points.length / 2 = 1)
    (dirs : List (α × α)) (offs : List (OffsetData α))
    (quads fans : List (List α)) (sx sy ex ey : α) (nrm0 nrm1 : α × α)
    (hdirs : (List.range (points.length / 2 - 1)).mapM (seg_dir ops points)
      = some dirs)
    (hoffs : (List.range (points.length / 2)).mapM
      (offset_at ops points widths (dirs.map norm_of) (points.length / 2))
      = some offs)
    (hquads : (List.range (points.length / 2 - 1)).mapM
      (quad_at offs (color.getD 0 0) (color.getD 1 0) (color.getD 2 0)
        (color.getD 3 1)) = some quads)
    (hfans : (List.range' 1 (points.length / 2 - 1 - 1)).mapM
      (fan_at ops points widths dirs offs (color.getD 0 0) (color.getD 1 0)
        (color.getD 2 0) (color.getD 3 1)) = some fans)
    (hsx : points[0]? = some sx) (hsy : points[1]? = some sy)
    (hex : points[(points.length / 2 - 1) * 2]? = some ex)
    (hey : points[(points.length / 2 - 1) * 2 + 1]? = some ey)
    (hn0 : (dirs.map norm_of)[0]? = some nrm0)
    (hn1 : (dirs.map norm_of)[points.length / 2 - 2]? = some nrm1) :
    build_mesh ops points widths color
      = some (quads.flatten ++ fans.flatten ++
        cap_mesh ops (sx, sy) nrm0 (widths.getD 0 1 * (1 / 2))
          (color.getD 0 0) (color.getD 1 0) (color.getD 2 0)
          (color.getD 3 1) ++
        cap_mesh ops (ex, ey) nrm1
          (widths.getD (points.length / 2 - 1) 1 * (1 / 2))
          (color.getD 0 0) (color.getD 1 0) (color.getD 2 0)
          (color.getD 3 1)) := by
  simp only [build_mesh, if_neg h0, if_neg h1, hdirs, hoffs, hquads, hfans,
    hsx, hsy, hex, hey, hn0, hn1, Option.bind_eq_bind, Option.some_bind]

/-! ## Facts about the disc fan -/

theorem circle_mesh_length (ops : Ops α) (cx cy radius r g b a : α) :
    (circle_mesh ops cx cy radius r g b a).length = 18 * 24 := by
  unfold circle_mesh
  refine (length_flatMap_const _ _ 18 fun s _ => by rfl).trans ?_
  simp

theorem circle_mesh_tri_facts (ops : Ops α) (cx cy radius r g b a : α)
    (t : ℕ) (ht : t < 24) :
    (circle_mesh ops cx cy radius r g b a)[18 * t]? = some cx ∧
    (circle_mesh ops cx cy radius r g b a)[18 * t + 1]? = some cy ∧
    (circle_mesh ops cx cy radius r g b a)[18 * t + 6]?
      = some (cx + ops.cos ((t : α) / 24 * fPI * 2) * radius) ∧
    (circle_mesh ops cx cy radius r g b a)[18 * t + 7]?
      = some (cy + ops.sin ((t : α) / 24 * fPI * 2) * radius) ∧
    (circle_mesh ops cx cy radius r g b a)[18 * t + 12]?
      = some (cx + ops.cos (((t + 1 : ℕ) : α) / 24 * fPI * 2) * radius) ∧
    (circle_mesh ops cx cy radius r g b a)[18 * t + 13]?
      = some (cy + ops.sin (((t + 1 : ℕ) : α) / 24 * fPI * 2) * radius) := by
  unfold circle_mesh
  refine ⟨?_, ?_, ?_, ?_, ?_, ?_⟩
  · rw [show 18 * t = 18 * t + 0 by omega]
    refine (getElem?_flatMap_range _ 18 (fun s => by rfl) 24 t 0 ht
      (by omega)).trans ?_
    simp [push_tri, push_vertex]
  · refine (getElem?_flatMap_range _ 18 (fun s => by rfl) 24 t 1 ht
      (by omega)).trans ?_
    simp [push_tri, push_vertex]
  · refine (getElem?_flatMap_range _ 18 (fun s => by rfl) 24 t 6 ht
      (by omega)).trans ?_
    simp [push_tri, push_vertex]
  · refine (getElem?_flatMap_range _ 18 (fun s => by rfl) 24 t 7 ht
      (by omega)).trans ?_
    simp [push_tri, push_vertex]
  · refine (getElem?_flatMap_range _ 18 (fun s => by rfl) 24 t 12 ht
      (by omega)).trans ?_
    simp [push_tri, push_vertex]
  · refine (getElem?_flatMap_range _ 18 (fun s => by rfl) 24 t 13 ht
      (by omega)).trans ?_
    simp [push_tri, push_vertex]

/-- The `n = 1` early return of `build_mesh`, as an equation. -/
theorem build_mesh_single (ops : Ops α) (points widths color : List α)
    (px py : α) (h1 : points.length / 2 = 1)
    (hpx : points[0]? = some px) (hpy : points[1]? = some py) :
    build_mesh ops points widths color
      = some (circle_mesh ops px py (widths.getD 0 1 * (1 / 2))
          (color.getD 0 0) (color.getD 1 0) (color.getD 2 0)
          (color.getD 3 1)) := by
  rw [build_mesh]
  simp only [h1, if_neg (by omega : ¬ points.length / 2 = 0), hpx, hpy,
    Option.bind_eq_bind, Option.some_bind]
  simp

/-! ## Claims -/

/-- Claim C5: for every input — `widths` or `color` shorter than expected,
coincident consecutive points, zero or negative widths — `build_mesh` never
panics: every slice index it takes is in bounds and it returns a
well-defined buffer. -/
theorem C5_total (ops : Ops α) (points widths color : List α) :
    (build_mesh ops points widths color).isSome = true :=
  build_mesh_total ops points widths color

/-- Claim C1: for every input the output length is a multiple of 6 and of
18; when `n = len points / 2 = 0` the output is empty, with no error. -/
theorem C1_output_length (ops : Ops α) (points widths color : List α) :
    (∀ l, build_mesh ops points widths color = some l →
      l.length % 6 = 0 ∧ l.length % 18 = 0) ∧
    (points.length / 2 = 0 → build_mesh ops points widths color = some []) := by
  constructor
  · intro l hl
    have h18 := (build_mesh_triStream ops points widths color l hl).length_mod18
    exact ⟨by omega, h18⟩
  · intro h0
    rw [build_mesh]
    simp [h0]

theorem C1_output_length_witness :
    ([] : List ℚ).length / 2 = 0 ∧
      build_mesh testOps ([] : List ℚ) [] [] = some [] :=
  ⟨rfl, (C1_output_length testOps [] [] []).2 rfl⟩

/-- Claim C6: every emitted vertex's scalars at positions 2..5 equal the
resolved colour `(r, g, b, a)` (missing trailing channels defaulting to
`0, 0, 0, 1`); in particular all three vertices of every triangle share the
input colour, and alpha is passed through exactly. -/
theorem C6_vertex_colour (ops : Ops α) (points widths color : List α)
    (l : List α) (hl : build_mesh ops points widths color = some l) :
    ∀ j : ℕ, 6 * j + 5 < l.length →
      l[6 * j + 2]? = some (color.getD 0 0) ∧
      l[6 * j + 3]? = some (color.getD 1 0) ∧
      l[6 * j + 4]? = some (color.getD 2 0) ∧
      l[6 * j + 5]? = some (color.getD 3 1) :=
  (build_mesh_triStream ops points widths color l hl).color_at

theorem C6_vertex_colour_witness :
    build_mesh testOps [1, 2] [] [3 / 4, 1 / 2, 1 / 4, 1]
      = some (circle_mesh testOps 1 2 (([] : List ℚ).getD 0 1 * (1 / 2))
          (3 / 4) (1 / 2) (1 / 4) 1) ∧
    (circle_mesh testOps 1 2 (([] : List ℚ).getD 0 1 * (1 / 2))
        (3 / 4) (1 / 2) (1 / 4) 1)[2]? = some (3 / 4) := by
  have h : build_mesh testOps [1, 2] [] [3 / 4, 1 / 2, 1 / 4, 1]
      = some (circle_mesh testOps 1 2 (([] : List ℚ).getD 0 1 * (1 / 2))
          (3 / 4) (1 / 2) (1 / 4) 1) := rfl
  refine ⟨h, ?_⟩
  have hb : 6 * 0 + 5 < (circle_mesh testOps 1 2
      (([] : List ℚ).getD 0 1 * (1 / 2)) (3 / 4) (1 / 2) (1 / 4) 1).length := by
    rw [circle_mesh_length]
    omega
  have hc := (C6_vertex_colour testOps [1, 2] [] [3 / 4, 1 / 2, 1 / 4, 1]
    _ h 0 hb).1
  simpa using hc

/-- Claim C3: for a single-point stroke (`n = 1`) the output equals exactly
the 24-triangle full-circle fan: 432 scalars, every triangle anchored at the
centre point, arc vertices at distance `radius = widths[0]/2` (default 0.5)
in the direction of the sampled angle, and the resolved colour on every
vertex. -/
theorem C3_single_point (ops : Ops α) (points widths color : List α)
    (px py : α) (h1 : points.length / 2 = 1)
    (hpx : points[0]? = some px) (hpy : points[1]? = some py) :
    build_mesh ops points widths color
      = some (circle_mesh ops px py (widths.getD 0 1 * (1 / 2))
          (color.getD 0 0) (color.getD 1 0) (color.getD 2 0)
          (color.getD 3 1)) ∧
    (circle_mesh ops px py (widths.getD 0 1 * (1 / 2)) (color.getD 0 0)
        (color.getD 1 0) (color.getD 2 0) (color.getD 3 1)).length
      = 432 ∧
    TriStream (color.getD 0 0) (color.getD 1 0) (color.getD 2 0)
      (color.getD 3 1)
      (circle_mesh ops px py (widths.getD 0 1 * (1 / 2)) (color.getD 0 0)
        (color.getD 1 0) (color.getD 2 0) (color.getD 3 1)) ∧
    ∀ t : ℕ, t < 24 →
      (circle_mesh ops px py (widths.getD 0 1 * (1 / 2)) (color.getD 0 0)
          (color.getD 1 0) (color.getD 2 0) (color.getD 3 1))[18 * t]?
        = some px ∧
      (circle_mesh ops px py (widths.getD 0 1 * (1 / 2)) (color.getD 0 0)
          (color.getD 1 0) (color.getD 2 0) (color.getD 3 1))[18 * t + 6]?
        = some (px + ops.cos ((t : α) / 24 * fPI * 2)
            * (widths.getD 0 1 * (1 / 2))) ∧
      (circle_mesh ops px py (widths.getD 0 1 * (1 / 2)) (color.getD 0 0)
          (color.getD 1 0) (color.getD 2 0) (color.getD 3 1))[18 * t + 7]?
        = some (py + ops.sin ((t : α) / 24 * fPI * 2)
            * (widths.getD 0 1 * (1 / 2))) := by
  refine ⟨build_mesh_single ops points widths color px py h1 hpx hpy,
    by rw [circle_mesh_length], circle_mesh_triStream ops px py _ _ _ _ _,
    fun t ht => ?_⟩
  obtain ⟨f0, _, f6, f7, _, _⟩ := circle_mesh_tri_facts ops px py
    (widths.getD 0 1 * (1 / 2)) (color.getD 0 0) (color.getD 1 0)
    (color.getD 2 0) (color.getD 3 1) t ht
  exact ⟨f0, f6, f7⟩

theorem C3_single_point_witness :
    ([1, 2] : List ℚ).length / 2 = 1 ∧
    ([1, 2] : List ℚ)[0]? = some 1 ∧ ([1, 2] : List ℚ)[1]? = some 2 ∧
    build_mesh testOps [1, 2] [] []
      = some (circle_mesh testOps 1 2 (([] : List ℚ).getD 0 1 * (1 / 2))
          0 0 0 1) :=
  ⟨rfl, rfl, rfl, (C3_single_point testOps [1, 2] [] [] 1 2 rfl rfl rfl).1⟩

/-! ## Arc subdivision facts -/

theorem cap_mesh_length (ops : Ops α) (center normal : α × α)
    (radius r g b a : α) :
    (cap_mesh ops center normal radius r g b a).length
      = 18 * max (⌈(wrap_a1 (ops.atan2 (-normal.2) (-normal.1))
            (ops.atan2 normal.2 normal.1)
            - ops.atan2 (-normal.2) (-normal.1)) / (fPI / 10)⌉).toNat 6 := by
  unfold cap_mesh
  refine (length_flatMap_const _ _ 18 fun s _ => by rfl).trans ?_
  simp

theorem fan_body_length (ops : Ops α) (px py radius : α) (d0 d1 : α × α)
    (r g b a : α) :
    (fan_body ops px py radius d0 d1 r g b a).length
      = 18 * max (⌈(wrap_a1
            (ops.atan2
              (if 0 ≤ d0.1 * d1.2 - d0.2 * d1.1 then ((-d0.2, d0.1) : α × α)
                else (- -d0.2, -d0.1)).2
              (if 0 ≤ d0.1 * d1.2 - d0.2 * d1.1 then ((-d0.2, d0.1) : α × α)
                else (- -d0.2, -d0.1)).1)
            (ops.atan2
              (if 0 ≤ d0.1 * d1.2 - d0.2 * d1.1 then ((-d1.2, d1.1) : α × α)
                else (- -d1.2, -d1.1)).2
              (if 0 ≤ d0.1 * d1.2 - d0.2 * d1.1 then ((-d1.2, d1.1) : α × α)
                else (- -d1.2, -d1.1)).1)
            - ops.atan2
              (if 0 ≤ d0.1 * d1.2 - d0.2 * d1.1 then ((-d0.2, d0.1) : α × α)
                else (- -d0.2, -d0.1)).2
              (if 0 ≤ d0.1 * d1.2 - d0.2 * d1.1 then ((-d0.2, d0.1) : α × α)
                else (- -d0.2, -d0.1)).1) / (fPI / 8)⌉).toNat 4 := by
  unfold fan_body
  refine (length_flatMap_const _ _ 18 fun s _ => by rfl).trans ?_
  simp

/-- Claim C4: every join fan has angular step at most `PI/8` and at least 4
triangles, every cap has angular step at most `PI/10` and at least 6
triangles, and the triangle counts are exactly
`max (ceil (span / (PI/8))) 4` resp. `max (ceil (span / (PI/10))) 6` for
the swept span. -/
theorem C4_arc_steps (ops : Ops α) :
    (∀ (center normal : α × α) (radius r g b a : α),
      (cap_mesh ops center normal radius r g b a).length
          = 18 * max (⌈(wrap_a1 (ops.atan2 (-normal.2) (-normal.1))
              (ops.atan2 normal.2 normal.1)
              - ops.atan2 (-normal.2) (-normal.1)) / (fPI / 10)⌉).toNat 6 ∧
      6 ≤ max (⌈(wrap_a1 (ops.atan2 (-normal.2) (-normal.1))
              (ops.atan2 normal.2 normal.1)
              - ops.atan2 (-normal.2) (-normal.1)) / (fPI / 10)⌉).toNat 6 ∧
      0 ≤ wrap_a1 (ops.atan2 (-normal.2) (-normal.1))
              (ops.atan2 normal.2 normal.1)
              - ops.atan2 (-normal.2) (-normal.1) ∧
      (wrap_a1 (ops.atan2 (-normal.2) (-normal.1))
              (ops.atan2 normal.2 normal.1)
              - ops.atan2 (-normal.2) (-normal.1))
          / ((max (⌈(wrap_a1 (ops.atan2 (-normal.2) (-normal.1))
              (ops.atan2 normal.2 normal.1)
              - ops.atan2 (-normal.2) (-normal.1)) / (fPI / 10)⌉).toNat 6 : ℕ) : α)
          ≤ fPI / 10) ∧
    (∀ (px py radius : α) (d0 d1 : α × α) (r g b a : α),
      ∀ a0 a1 : α,
        a0 = ops.atan2
          (if 0 ≤ d0.1 * d1.2 - d0.2 * d1.1 then ((-d0.2, d0.1) : α × α)
            else (- -d0.2, -d0.1)).2
          (if 0 ≤ d0.1 * d1.2 - d0.2 * d1.1 then ((-d0.2, d0.1) : α × α)
            else (- -d0.2, -d0.1)).1 →
        a1 = ops.atan2
          (if 0 ≤ d0.1 * d1.2 - d0.2 * d1.1 then ((-d1.2, d1.1) : α × α)
            else (- -d1.2, -d1.1)).2
          (if 0 ≤ d0.1 * d1.2 - d0.2 * d1.1 then ((-d1.2, d1.1) : α × α)
            else (- -d1.2, -d1.1)).1 →
        (fan_body ops px py radius d0 d1 r g b a).length
            = 18 * max (⌈(wrap_a1 a0 a1 - a0) / (fPI / 8)⌉).toNat 4 ∧
        4 ≤ max (⌈(wrap_a1 a0 a1 - a0) / (fPI / 8)⌉).toNat 4 ∧
        0 ≤ wrap_a1 a0 a1 - a0 ∧
        (wrap_a1 a0 a1 - a0)
            / ((max (⌈(wrap_a1 a0 a1 - a0) / (fPI / 8)⌉).toNat 4 : ℕ) : α)
            ≤ fPI / 8) := by
  have hc10 : (0 : α) < fPI / 10 := by norm_num [fPI]
  have hc8 : (0 : α) < fPI / 8 := by norm_num [fPI]
  constructor
  · intro center normal radius r g b a
    have h0 : (0 : α) ≤ wrap_a1 (ops.atan2 (-normal.2) (-normal.1))
        (ops.atan2 normal.2 normal.1) - ops.atan2 (-normal.2) (-normal.1) :=
      sub_nonneg.mpr (wrap_a1_ge _ _)
    exact ⟨cap_mesh_length ops center normal radius r g b a,
      le_max_right _ _, h0, angle_step_le _ _ hc10 h0 6 (by omega)⟩
  · intro px py radius d0 d1 r g b a a0 a1 ha0 ha1
    have h0 : (0 : α) ≤ wrap_a1 a0 a1 - a0 := sub_nonneg.mpr (wrap_a1_ge _ _)
    refine ⟨?_, le_max_right _ _, h0, angle_step_le _ _ hc8 h0 4 (by omega)⟩
    rw [fan_body_length, ha0, ha1]

theorem C4_arc_steps_witness :
    (fan_body testOps 0 0 1 (1, 0) (1, 0) 0 0 0 1).length
      = 18 * max (⌈(wrap_a1 (fPI / 2 : ℚ) (fPI / 2) - fPI / 2)
          / (fPI / 8)⌉).toNat 4 :=
  ((C4_arc_steps testOps).2 0 0 1 (1, 0) (1, 0) 0 0 0 1 (fPI / 2) (fPI / 2)
    (by norm_num [testOps]) (by norm_num [testOps])).1

/-- Claim C2: an interior point (`0 < i < n-1`) is classified Round
(`join = false`) exactly when the magnitude of the sum of the two segment
normals is below `1e-4` or the computed miter length exceeds `4 ×` the
point radius (`widths[i]/2`, default `0.5`); otherwise it is Miter, and
this single stored flag is what decides whether the join-fan loop emits a
fan at that point. -/
theorem C2_classification (ops : Ops α) (points widths : List α)
    (norms : List (α × α)) (n i : ℕ) (hi0 : i ≠ 0) (hin : i ≠ n - 1)
    (n0 n1 : α × α) (hn0 : norms[i - 1]? = some n0)
    (hn1 : norms[i]? = some n1) (o : OffsetData α)
    (ho : offset_at ops points widths norms n i = some o) :
    (∀ radius ml mdir1 mdir2 dt mlen : α,
      radius = widths.getD i 1 * (1 / 2) →
      ml = ops.sqrt ((n0.1 + n1.1) * (n0.1 + n1.1)
        + (n0.2 + n1.2) * (n0.2 + n1.2)) →
      mdir1 = (n0.1 + n1.1) / ml →
      mdir2 = (n0.2 + n1.2) / ml →
      dt = mdir1 * n1.1 + mdir2 * n1.2 →
      mlen = (if 1 / 1000000 < |dt| then radius / dt else radius) →
      (o.join = false ↔ ml < 1 / 10000 ∨ 4 * radius < |mlen|)) ∧
    (∀ (dirs : List (α × α)) (offs : List (OffsetData α)) (r g b a : α)
        (f : List α), offs[i]? = some o →
      fan_at ops points widths dirs offs r g b a i = some f →
      (o.join = true ↔ f = [])) := by
  obtain ⟨px, hpx⟩ : ∃ v, points[i * 2]? = some v := by
    rcases hp : points[i * 2]? with _ | v
    · unfold offset_at at ho
      rw [hp] at ho
      simp at ho
    · exact ⟨v, rfl⟩
  obtain ⟨py, hpy⟩ : ∃ v, points[i * 2 + 1]? = some v := by
    rcases hp : points[i * 2 + 1]? with _ | v
    · unfold offset_at at ho
      rw [hpx, hp] at ho
      simp at ho
    · exact ⟨v, rfl⟩
  rw [offset_at_interior ops points widths norms n i hi0 hin px py n0 n1
    hpx hpy hn0 hn1] at ho
  constructor
  · intro radius ml mdir1 mdir2 dt mlen hrad hml hm1 hm2 hdt hmlen
    subst hrad hml hm1 hm2 hdt hmlen
    set mlenE := (if 1 / 1000000 <
        |(n0.1 + n1.1) / ops.sqrt ((n0.1 + n1.1) * (n0.1 + n1.1)
            + (n0.2 + n1.2) * (n0.2 + n1.2)) * n1.1
          + (n0.2 + n1.2) / ops.sqrt ((n0.1 + n1.1) * (n0.1 + n1.1)
            + (n0.2 + n1.2) * (n0.2 + n1.2)) * n1.2| then
        widths.getD i 1 * (1 / 2) /
          ((n0.1 + n1.1) / ops.sqrt ((n0.1 + n1.1) * (n0.1 + n1.1)
              + (n0.2 + n1.2) * (n0.2 + n1.2)) * n1.1
            + (n0.2 + n1.2) / ops.sqrt ((n0.1 + n1.1) * (n0.1 + n1.1)
              + (n0.2 + n1.2) * (n0.2 + n1.2)) * n1.2)
      else widths.getD i 1 * (1 / 2)) with hmlenE
    split_ifs at ho with h1 h2
    · obtain rfl := Option.some_inj.mp ho
      exact iff_of_true rfl (Or.inl h1)
    · obtain rfl := Option.some_inj.mp ho
      refine iff_of_false (by simp) ?_
      rintro (hA | hB)
      · exact h1 hA
      · exact absurd hB (not_lt.mpr h2)
    · obtain rfl := Option.some_inj.mp ho
      exact iff_of_true rfl (Or.inr (not_le.mp h2))
  · intro dirs offs r g b a f hoo hf
    by_cases hj : o.join = true
    · rw [fan_at_of_miter ops points widths dirs offs r g b a i o hoo hj]
        at hf
      obtain rfl := Option.some_inj.mp hf
      simp [hj]
    · have hj' : o.join = false := by simpa using hj
      simp only [fan_at, hoo, Option.bind_eq_bind, Option.some_bind,
        hj', if_false, Bool.false_eq_true] at hf
      obtain ⟨px', hpx', hf⟩ := Option.bind_eq_some.mp hf
      obtain ⟨py', hpy', hf⟩ := Option.bind_eq_some.mp hf
      obtain ⟨d0, hd0, hf⟩ := Option.bind_eq_some.mp hf
      obtain ⟨d1, hd1, hf⟩ := Option.bind_eq_some.mp hf
      obtain rfl := Option.some_inj.mp hf
      refine iff_of_false hj ?_
      intro hnil
      have hlen := fan_body_length ops px' py' (widths.getD i 1 * (1 / 2))
        d0 d1 r g b a
      rw [hnil] at hlen
      simp at hlen

theorem C2_classification_witness :
    ∃ o : OffsetData ℚ,
      offset_at testOps [0, 0, 1, 0, 2, 0] [] [(0, 1), (0, 1)] 3 1 = some o ∧
      (o.join = false ↔
        ((2 : ℚ) < 1 / 10000 ∨ 4 * ((1 : ℚ) / 2) < |(1 : ℚ) / 2|)) := by
  obtain ⟨o, ho⟩ := Option.isSome_iff_exists.mp
    (offset_at_isSome testOps [0, 0, 1, 0, 2, 0] [] [(0, 1), (0, 1)] 3 1
      (by omega) (by omega) (by simp) (by simp))
  refine ⟨o, ho, ?_⟩
  have h2 : (2 : ℚ) = testOps.sqrt ((((0 : ℚ), (1 : ℚ)).1 + ((0 : ℚ), (1 : ℚ)).1)
      * (((0 : ℚ), (1 : ℚ)).1 + ((0 : ℚ), (1 : ℚ)).1)
      + (((0 : ℚ), (1 : ℚ)).2 + ((0 : ℚ), (1 : ℚ)).2)
      * (((0 : ℚ), (1 : ℚ)).2 + ((0 : ℚ), (1 : ℚ)).2)) := by
    norm_num [testOps]
  exact (C2_classification testOps [0, 0, 1, 0, 2, 0] [] [(0, 1), (0, 1)] 3 1
    (by omega) (by omega) (0, 1) (0, 1) rfl rfl o ho).1
    (1 / 2) 2 0 1 1 (1 / 2) (by norm_num) h2 (by norm_num [testOps])
    (by norm_num [testOps]) (by norm_num) (by norm_num)

/-! ## Quad and flatten length facts -/

theorem length_flatten_const (L : List (List α)) (m : ℕ)
    (hf : ∀ x ∈ L, x.length = m) : L.flatten.length = m * L.length := by
  induction L with
  | nil => simp
  | cons x xs ih =>
    rw [List.flatten_cons, List.length_append, hf x (by simp),
      ih fun s hs => hf s (by simp [hs]), List.length_cons]
    ring

theorem quad_at_length (offs : List (OffsetData α)) (r g b a : α) (i : ℕ)
    (q : List α) (h : quad_at offs r g b a i = some q) : q.length = 36 := by
  simp only [quad_at, Option.bind_eq_bind] at h
  obtain ⟨o0, ho0, h⟩ := Option.bind_eq_some.mp h
  obtain ⟨o1, ho1, h⟩ := Option.bind_eq_some.mp h
  obtain rfl := Option.some_inj.mp h
  rw [List.length_append, push_tri_length, push_tri_length]

/-- Claim C7: for a 3-point stroke whose two computed segment directions
are equal and unit (collinear, equally spaced direction) and whose interior
width is positive, the interior point is classified Miter (`join = true`),
the join-fan loop emits nothing, and the stroke body before the caps is
exactly the two segment quads (four triangles, 72 scalars). -/
theorem C7_collinear (ops : Ops α) (points widths color : List α)
    (d : α × α) (hn : points.length / 2 = 3)
    (hdirs : (List.range 2).mapM (seg_dir ops points) = some [d, d])
    (hunit : d.1 * d.1 + d.2 * d.2 = 1)
    (hsqrt4 : ops.sqrt 4 = 2)
    (hw : 0 < widths.getD 1 1) :
    ∃ (offs : List (OffsetData α)) (o : OffsetData α)
      (quads fans : List (List α)) (caps : List α),
      (List.range 3).mapM (offset_at ops points widths ([d, d].map norm_of) 3)
        = some offs ∧
      offs[1]? = some o ∧ o.join = true ∧
      (List.range 2).mapM (quad_at offs (color.getD 0 0) (color.getD 1 0)
        (color.getD 2 0) (color.getD 3 1)) = some quads ∧
      quads.flatten.length = 72 ∧
      (List.range' 1 1).mapM (fan_at ops points widths [d, d] offs
        (color.getD 0 0) (color.getD 1 0) (color.getD 2 0) (color.getD 3 1))
        = some fans ∧
      fans.flatten = [] ∧
      build_mesh ops points widths color
        = some (quads.flatten ++ fans.flatten ++ caps) := by
  obtain ⟨dirs, offs, quads, fans, sx, sy, ex, ey, nrm0, nrm1, hdirs0, hdl,
    hoffs, hol, hquads, hql, hfans, hfl, hsx, hsy, hex, hey, hnn0, hnn1,
    heq⟩ := build_mesh_core ops points widths color (by omega)
  rw [hn] at hdirs0 hoffs hquads hfans
  rw [show (3 : ℕ) - 1 = 2 from rfl] at hdirs0 hquads
  rw [show (3 : ℕ) - 1 - 1 = 1 from rfl] at hfans
  obtain rfl : dirs = [d, d] := by
    have := hdirs0.symm.trans hdirs
    simpa using this
  obtain ⟨o, ho1, hoe⟩ := getElem?_of_mapM _ _ _ hoffs 1 1 (by simp)
  have hjoin : o.join = true := by
    have hb2 : (1 : ℕ) * 2 < points.length := by omega
    have hb3 : (1 : ℕ) * 2 + 1 < points.length := by omega
    obtain ⟨px, hpx⟩ : ∃ v, points[(1 : ℕ) * 2]? = some v :=
      ⟨_, List.getElem?_eq_getElem hb2⟩
    obtain ⟨py, hpy⟩ : ∃ v, points[(1 : ℕ) * 2 + 1]? = some v :=
      ⟨_, List.getElem?_eq_getElem hb3⟩
    rw [offset_at_interior ops points widths ([d, d].map norm_of) 3 1
      (by omega) (by omega) px py (-d.2, d.1) (-d.2, d.1)
      hpx hpy (by simp [norm_of]) (by simp [norm_of])] at hoe
    dsimp only at hoe
    rw [show (-d.2 + -d.2) * (-d.2 + -d.2) + (d.1 + d.1) * (d.1 + d.1)
        = 4 from by linear_combination 4 * hunit, hsqrt4] at hoe
    rw [if_neg (by norm_num : ¬ (2 : α) < 1 / 10000)] at hoe
    rw [show (-d.2 + -d.2) / 2 * -d.2 + (d.1 + d.1) / 2 * d.1 = 1 from by
      linear_combination hunit] at hoe
    rw [if_pos (by norm_num : (1 : α) / 1000000 < |(1 : α)|)] at hoe
    have hrpos : (0 : α) < widths.getD 1 1 * (1 / 2) := by
      have : (0 : α) < (1 : α) / 2 := by norm_num
      exact mul_pos hw this
    rw [if_pos (by
      rw [div_one, abs_of_pos hrpos]
      linarith : |widths.getD 1 1 * (1 / 2) / 1| ≤ 4 * (widths.getD 1 1 * (1 / 2)))] at hoe
    obtain rfl := Option.some_inj.mp hoe
    rfl
  refine ⟨offs, o, quads, fans,
    cap_mesh ops (sx, sy) nrm0 (widths.getD 0 1 * (1 / 2)) (color.getD 0 0)
        (color.getD 1 0) (color.getD 2 0) (color.getD 3 1) ++
      cap_mesh ops (ex, ey) nrm1
        (widths.getD (points.length / 2 - 1) 1 * (1 / 2)) (color.getD 0 0)
        (color.getD 1 0) (color.getD 2 0) (color.getD 3 1),
    hoffs, ho1, hjoin, hquads, ?_, hfans, ?_, ?_⟩
  · have hq36 : ∀ q ∈ quads, q.length = 36 := by
      intro q hq
      obtain ⟨i, _, hqi⟩ := mem_of_mapM _ _ _ hquads q hq
      exact quad_at_length offs _ _ _ _ i q hqi
    rw [length_flatten_const quads 36 hq36]
    rw [hql, hn]
  · have hfnil : ∀ f ∈ fans, f = [] := by
      intro f hf
      obtain ⟨i, hi, hfi⟩ := mem_of_mapM _ _ _ hfans f hf
      have hi1 : i = 1 := by
        have := List.mem_range'_1.mp hi
        omega
      subst hi1
      have := (fan_at_of_miter ops points widths [d, d] offs _ _ _ _ 1 o
        ho1 hjoin).symm.trans hfi
      simpa using this.symm
    exact List.flatten_eq_nil_iff.mpr hfnil
  · rw [heq]
    rw [List.append_assoc]

theorem C7_collinear_witness :
    ([0, 0, 1, 0, 2, 0] : List ℚ).length / 2 = 3 ∧
    (List.range 2).mapM (seg_dir testOps [0, 0, 1, 0, 2, 0])
      = some [((1 : ℚ), (0 : ℚ)), (1, 0)] ∧
    ∃ (offs : List (OffsetData ℚ)) (o : OffsetData ℚ)
      (quads fans : List (List ℚ)) (caps : List ℚ),
      (List.range 3).mapM (offset_at testOps [0, 0, 1, 0, 2, 0] [1, 1, 1]
        ([((1 : ℚ), (0 : ℚ)), (1, 0)].map norm_of) 3) = some offs ∧
      offs[1]? = some o ∧ o.join = true ∧
      (List.range 2).mapM (quad_at offs (([] : List ℚ).getD 0 0)
        (([] : List ℚ).getD 1 0) (([] : List ℚ).getD 2 0)
        (([] : List ℚ).getD 3 1)) = some quads ∧
      quads.flatten.length = 72 ∧
      (List.range' 1 1).mapM (fan_at testOps [0, 0, 1, 0, 2, 0] [1, 1, 1]
        [((1 : ℚ), (0 : ℚ)), (1, 0)] offs (([] : List ℚ).getD 0 0)
        (([] : List ℚ).getD 1 0) (([] : List ℚ).getD 2 0)
        (([] : List ℚ).getD 3 1)) = some fans ∧
      fans.flatten = [] ∧
      build_mesh testOps [0, 0, 1, 0, 2, 0] [1, 1, 1] []
        = some (quads.flatten ++ fans.flatten ++ caps) := by
  have hseg0 : seg_dir testOps [0, 0, 1, 0, 2, 0] 0 = some ((1 : ℚ), 0) := by
    unfold seg_dir
    norm_num [testOps, max_def]
  have hseg1 : seg_dir testOps [0, 0, 1, 0, 2, 0] 1 = some ((1 : ℚ), 0) := by
    unfold seg_dir
    norm_num [testOps, max_def]
  have hd : (List.range 2).mapM (seg_dir testOps [0, 0, 1, 0, 2, 0])
      = some [((1 : ℚ), (0 : ℚ)), (1, 0)] := by
    rw [show List.range 2 = [0, 1] from rfl, List.mapM_cons, hseg0,
      List.mapM_cons, hseg1, List.mapM_nil]
    rfl
  exact ⟨rfl, hd, C7_collinear testOps [0, 0, 1, 0, 2, 0] [1, 1, 1] [] (1, 0)
    rfl hd (by norm_num) (by norm_num [testOps]) (by norm_num)⟩

/-! ## Exact reversal facts -/

theorem wrap_a1_sub_fPI (a0v : α) : wrap_a1 a0v (a0v - fPI) = a0v + fPI := by
  have hpi : (0 : α) < fPI := by norm_num [fPI]
  rw [wrap_a1, if_pos (by linarith : a0v - fPI < a0v),
    show a0v - fPI + fPI * 2 = a0v + fPI by ring,
    wrap_a1, if_neg (by linarith : ¬ a0v + fPI < a0v)]

theorem steps_of_pi : max (⌈(fPI : α) / (fPI / 8)⌉).toNat 4 = 8 := by
  have hne : (fPI : α) ≠ 0 := by norm_num [fPI]
  have h8 : (fPI : α) / (fPI / 8) = 8 := by
    rw [div_div_eq_mul_div, mul_comm, mul_div_assoc, div_self hne, mul_one]
  rw [h8, show ((8 : α)) = ((8 : ℕ) : α) from by norm_num, Int.ceil_natCast]
  rfl

/-- A round interior point always gets a nonempty fan from the join-fan
loop (at least 4 triangles). -/
theorem fan_at_ne_nil (ops : Ops α) (points widths : List α)
    (dirs : List (α × α)) (offs : List (OffsetData α)) (r g b a : α) (i : ℕ)
    (o : OffsetData α) (f : List α) (ho : offs[i]? = some o)
    (hj : o.join = false)
    (hf : fan_at ops points widths dirs offs r g b a i = some f) : f ≠ [] := by
  simp only [fan_at, ho, Option.bind_eq_bind, Option.some_bind, hj,
    if_false, Bool.false_eq_true] at hf
  obtain ⟨px', _, hf⟩ := Option.bind_eq_some.mp hf
  obtain ⟨py', _, hf⟩ := Option.bind_eq_some.mp hf
  obtain ⟨d0, _, hf⟩ := Option.bind_eq_some.mp hf
  obtain ⟨d1, _, hf⟩ := Option.bind_eq_some.mp hf
  obtain rfl := Option.some_inj.mp hf
  intro hnil
  have hlen := fan_body_length ops px' py' (widths.getD i 1 * (1 / 2))
    d0 d1 r g b a
  rw [hnil] at hlen
  simp at hlen

/-- Claim C8: for a 3-point stroke whose second computed direction exactly
reverses the first, the interior point is classified Round, the join-fan
loop emits a nonempty fan there, and the fan's swept angle is exactly `PI`
(8 triangles of step exactly `PI/8`). -/
theorem C8_reversal (ops : Ops α) (points widths : List α)
    (d : α × α) (a0v : α)
    (hsqrt0 : ops.sqrt 0 = 0)
    (hat0 : ops.atan2 d.1 (-d.2) = a0v)
    (hat1 : ops.atan2 (-d.1) d.2 = a0v - fPI) :
    (∀ o : OffsetData α,
      offset_at ops points widths ([d, (-d.1, -d.2)].map norm_of) 3 1
        = some o →
      o.join = false ∧
      ∀ (offs : List (OffsetData α)) (r g b a : α) (f : List α),
        offs[1]? = some o →
        fan_at ops points widths [d, (-d.1, -d.2)] offs r g b a 1 = some f →
        f ≠ []) ∧
    wrap_a1 a0v (a0v - fPI) - a0v = fPI ∧
    (∀ px py radius r g b a : α,
      (fan_body ops px py radius d (-d.1, -d.2) r g b a).length = 18 * 8) := by
  refine ⟨?_, by rw [wrap_a1_sub_fPI]; ring, ?_⟩
  · intro o ho
    have hjoin : o.join = false := by
      obtain ⟨px, hpx, ho'⟩ := Option.bind_eq_some.mp
        (by simpa only [offset_at, Option.bind_eq_bind] using ho)
      obtain ⟨py, hpy, _⟩ := Option.bind_eq_some.mp ho'
      rw [offset_at_interior ops points widths ([d, (-d.1, -d.2)].map norm_of)
        3 1 (by omega) (by omega) px py (-d.2, d.1) (- -d.2, -d.1) hpx hpy
        (by simp [norm_of]) (by simp [norm_of])] at ho
      dsimp only at ho
      rw [show (-d.2 + - -d.2) * (-d.2 + - -d.2) + (d.1 + -d.1) * (d.1 + -d.1)
          = 0 from by ring, hsqrt0] at ho
      rw [if_pos (by norm_num : (0 : α) < 1 / 10000)] at ho
      obtain rfl := Option.some_inj.mp ho
      rfl
    exact ⟨hjoin, fun offs r g b a f hoo hf =>
      fan_at_ne_nil ops points widths [d, (-d.1, -d.2)] offs r g b a 1 o f
        hoo hjoin hf⟩
  · intro px py radius r g b a
    rw [fan_body_length]
    dsimp only
    rw [show d.1 * -d.2 - d.2 * -d.1 = 0 from by ring]
    simp only [le_refl, if_pos]
    rw [neg_neg, hat0, hat1, wrap_a1_sub_fPI,
      show a0v + fPI - a0v = fPI from by ring, steps_of_pi]

theorem C8_reversal_witness :
    testOps.sqrt 0 = 0 ∧
    testOps.atan2 ((1 : ℚ), (0 : ℚ)).1 (-((1 : ℚ), (0 : ℚ)).2) = fPI / 2 ∧
    testOps.atan2 (-((1 : ℚ), (0 : ℚ)).1) ((1 : ℚ), (0 : ℚ)).2
      = fPI / 2 - fPI ∧
    wrap_a1 (fPI / 2 : ℚ) (fPI / 2 - fPI) - fPI / 2 = fPI := by
  have h0 : testOps.sqrt 0 = 0 := by norm_num [testOps]
  have h1 : testOps.atan2 ((1 : ℚ), (0 : ℚ)).1 (-((1 : ℚ), (0 : ℚ)).2)
      = fPI / 2 := by norm_num [testOps]
  have h2 : testOps.atan2 (-((1 : ℚ), (0 : ℚ)).1) ((1 : ℚ), (0 : ℚ)).2
      = fPI / 2 - fPI := by norm_num [testOps, fPI]
  exact ⟨h0, h1, h2, (C8_reversal testOps [0, 0, 1, 0, 0, 0] [] (1, 0)
    (fPI / 2) h0 h1 h2).2.1⟩

/-- Claim C10: for an odd-length `points` array, `build_mesh` raises no
error and its output equals the output on the same input with the trailing
unpaired scalar removed: `n` is the floor of `len/2` and the last scalar
never influences any emitted vertex. -/
theorem C10_odd_points (ops : Ops α) (points widths color : List α)
    (hodd : points.length % 2 = 1) :
    build_mesh ops points widths color
      = build_mesh ops points.dropLast widths color ∧
    (build_mesh ops points widths color).isSome = true := by
  refine ⟨?_, build_mesh_total ops points widths color⟩
  have hdl : points.dropLast.length = points.length - 1 := by simp
  have hn : points.dropLast.length / 2 = points.length / 2 := by omega
  have hget : ∀ k, k < 2 * (points.length / 2) →
      points.dropLast[k]? = points[k]? := by
    intro k hk
    have h2n : points.length / 2 * 2 ≤ points.length :=
      Nat.div_mul_le_self points.length 2
    rw [List.dropLast_eq_take, List.getElem?_take, if_pos (by omega)]
  by_cases h0 : points.length / 2 = 0
  · simp only [build_mesh]
    rw [hn, if_pos h0, if_pos h0]
  · by_cases h1 : points.length / 2 = 1
    · simp only [build_mesh]
      rw [hn, if_neg h0, if_neg h0, if_pos h1, if_pos h1,
        hget 0 (by omega), hget 1 (by omega)]
    · have h2n : points.length / 2 * 2 ≤ points.length :=
        Nat.div_mul_le_self points.length 2
      obtain ⟨dirs, offs, quads, fans, sx, sy, ex, ey, nrm0, nrm1, hdirs,
        hdl2, hoffs, hol, hquads, hql, hfans, hfl, hsx, hsy, hex, hey, hq0,
        hq1, heq⟩ := build_mesh_core ops points widths color (by omega)
      have hseg : ∀ i ∈ List.range (points.length / 2 - 1),
          seg_dir ops points.dropLast i = seg_dir ops points i := by
        intro i hi
        have hi' := List.mem_range.mp hi
        unfold seg_dir
        rw [hget (i * 2) (by omega), hget (i * 2 + 1) (by omega),
          hget ((i + 1) * 2) (by omega), hget ((i + 1) * 2 + 1) (by omega)]
      have hoffc : ∀ i ∈ List.range (points.length / 2),
          offset_at ops points.dropLast widths (dirs.map norm_of)
            (points.length / 2) i
          = offset_at ops points widths (dirs.map norm_of)
            (points.length / 2) i := by
        intro i hi
        have hi' := List.mem_range.mp hi
        unfold offset_at
        rw [hget (i * 2) (by omega), hget (i * 2 + 1) (by omega)]
      have hfanc : ∀ i ∈ List.range' 1 (points.length / 2 - 1 - 1),
          fan_at ops points.dropLast widths dirs offs (color.getD 0 0)
            (color.getD 1 0) (color.getD 2 0) (color.getD 3 1) i
          = fan_at ops points widths dirs offs (color.getD 0 0)
            (color.getD 1 0) (color.getD 2 0) (color.getD 3 1) i := by
        intro i hi
        have hi' := List.mem_range'_1.mp hi
        unfold fan_at
        rw [hget (i * 2) (by omega), hget (i * 2 + 1) (by omega)]
      have hdirs' : (List.range (points.dropLast.length / 2 - 1)).mapM
          (seg_dir ops points.dropLast) = some dirs := by
        rw [hn]
        exact (mapM_congr_mem hseg).trans hdirs
      have hoffs' : (List.range (points.dropLast.length / 2)).mapM
          (offset_at ops points.dropLast widths (dirs.map norm_of)
            (points.dropLast.length / 2)) = some offs := by
        rw [hn]
        exact (mapM_congr_mem hoffc).trans hoffs
      have hquads' : (List.range (points.dropLast.length / 2 - 1)).mapM
          (quad_at offs (color.getD 0 0) (color.getD 1 0) (color.getD 2 0)
            (color.getD 3 1)) = some quads := by
        rw [hn]
        exact hquads
      have hfans' : (List.range' 1 (points.dropLast.length / 2 - 1 - 1)).mapM
          (fan_at ops points.dropLast widths dirs offs (color.getD 0 0)
            (color.getD 1 0) (color.getD 2 0) (color.getD 3 1))
          = some fans := by
        rw [hn]
        exact (mapM_congr_mem hfanc).trans hfans
      have hsx' : points.dropLast[0]? = some sx :=
        (hget 0 (by omega)).trans hsx
      have hsy' : points.dropLast[1]? = some sy :=
        (hget 1 (by omega)).trans hsy
      have hex' : points.dropLast[(points.dropLast.length / 2 - 1) * 2]?
          = some ex := by
        rw [hn]
        exact (hget _ (by omega)).trans hex
      have hey' : points.dropLast[(points.dropLast.length / 2 - 1) * 2 + 1]?
          = some ey := by
        rw [hn]
        exact (hget _ (by omega)).trans hey
      have hq0' : (dirs.map norm_of)[0]? = some nrm0 := hq0
      have hq1' : (dirs.map norm_of)[points.dropLast.length / 2 - 2]?
          = some nrm1 := by
        rw [hn]
        exact hq1
      rw [heq, build_mesh_of_stages ops points.dropLast widths color
        (by rw [hn]; exact h0) (by rw [hn]; exact h1) dirs offs quads fans
        sx sy ex ey nrm0 nrm1 hdirs' hoffs' hquads' hfans' hsx' hsy' hex'
        hey' hq0' hq1', hn]

theorem C10_odd_points_witness :
    ([0, 0, 5] : List ℚ).length % 2 = 1 ∧
    build_mesh testOps [0, 0, 5] [] []
      = build_mesh testOps ([0, 0, 5] : List ℚ).dropLast [] [] :=
  ⟨rfl, (C10_odd_points testOps [0, 0, 5] [] [] rfl).1⟩

/-! ## Cap geometry over the reals (claim C9) -/

theorem meshVertices_push_tri (p q t : α × α) (r g b a : α) (l : List α) :
    meshVertices (push_tri p q t r g b a ++ l)
      = (p.1, p.2) :: (q.1, q.2) :: (t.1, t.2) :: meshVertices l := by
  simp [push_tri, push_vertex, meshVertices]

theorem meshVertices_flatMap_push_tri {β : Type} (L : List β)
    (P Q T : β → α × α) (r g b a : α) :
    meshVertices (L.flatMap fun s => push_tri (P s) (Q s) (T s) r g b a)
      = L.flatMap fun s =>
          [((P s).1, (P s).2), ((Q s).1, (Q s).2), ((T s).1, (T s).2)] := by
  induction L with
  | nil => rfl
  | cons x xs ih =>
    rw [List.flatMap_cons, meshVertices_push_tri, List.flatMap_cons]
    simp [ih]

theorem realOps_cos : realOps.cos = Real.cos := rfl

theorem realOps_sin : realOps.sin = Real.sin := rfl

theorem realOps_atan2_neg_unit :
    realOps.atan2 (-(1 : ℝ)) (-(0 : ℝ)) = -(Real.pi / 2) := by
  show Complex.arg ⟨-(0 : ℝ), -(1 : ℝ)⟩ = -(Real.pi / 2)
  have h : (⟨-(0 : ℝ), -(1 : ℝ)⟩ : ℂ) = -Complex.I := by
    apply Complex.ext <;> simp
  rw [h, Complex.arg_neg_I]

theorem realOps_atan2_unit :
    realOps.atan2 (1 : ℝ) (0 : ℝ) = Real.pi / 2 := by
  show Complex.arg ⟨(0 : ℝ), (1 : ℝ)⟩ = Real.pi / 2
  have h : (⟨(0 : ℝ), (1 : ℝ)⟩ : ℂ) = Complex.I := by
    apply Complex.ext <;> simp
  rw [h, Complex.arg_I]

theorem wrap_pi_halves :
    wrap_a1 (-(Real.pi / 2)) (Real.pi / 2) = Real.pi / 2 := by
  rw [wrap_a1, if_neg (not_lt.mpr (by linarith [Real.pi_pos]))]

theorem cap_unit_eq :
    cap_mesh realOps ((0 : ℝ), 0) (0, 1) 1 0 0 0 1
      = (List.range capS).flatMap fun s =>
          push_tri ((0 : ℝ), (0 : ℝ))
            (0 + Real.cos (capTheta s) * 1, 0 + Real.sin (capTheta s) * 1)
            (0 + Real.cos (capTheta (s + 1)) * 1,
             0 + Real.sin (capTheta (s + 1)) * 1) 0 0 0 1 := by
  unfold cap_mesh capTheta capS
  simp only [realOps_atan2_neg_unit, realOps_atan2_unit, wrap_pi_halves,
    realOps_cos, realOps_sin,
    show Real.pi / 2 - -(Real.pi / 2) = Real.pi from by ring]

theorem capS_pos : 0 < capS :=
  lt_of_lt_of_le (by norm_num) (le_max_right _ _)

theorem cap_unit_meshVertices :
    meshVertices (cap_mesh realOps ((0 : ℝ), 0) (0, 1) 1 0 0 0 1)
      = (List.range capS).flatMap fun s =>
          [((0 : ℝ), (0 : ℝ)),
           (0 + Real.cos (capTheta s) * 1, 0 + Real.sin (capTheta s) * 1),
           (0 + Real.cos (capTheta (s + 1)) * 1,
            0 + Real.sin (capTheta (s + 1)) * 1)] := by
  rw [cap_unit_eq]
  have e := meshVertices_flatMap_push_tri (List.range capS)
    (fun _ => (((0 : ℝ)), ((0 : ℝ))))
    (fun s => (0 + Real.cos (capTheta s) * 1, 0 + Real.sin (capTheta s) * 1))
    (fun s => (0 + Real.cos (capTheta (s + 1)) * 1,
      0 + Real.sin (capTheta (s + 1)) * 1)) 0 0 0 1
  rw [e]

theorem cap_unit_mem_of_le (k : ℕ) (hk : k ≤ capS) :
    (Real.cos (capTheta k), Real.sin (capTheta k))
      ∈ meshVertices (cap_mesh realOps ((0 : ℝ), 0) (0, 1) 1 0 0 0 1) := by
  rw [cap_unit_meshVertices]
  rcases Nat.lt_or_ge k capS with hlt | hge
  · exact List.mem_flatMap.mpr ⟨k, List.mem_range.mpr hlt, by simp⟩
  · have hkS : k = capS := le_antisymm hk hge
    subst hkS
    refine List.mem_flatMap.mpr ⟨capS - 1,
      List.mem_range.mpr (by have := capS_pos; omega), ?_⟩
    have hsucc : capS - 1 + 1 = capS := by have := capS_pos; omega
    rw [hsucc]
    simp

theorem cap_unit_x_nonneg :
    ∀ v ∈ meshVertices (cap_mesh realOps ((0 : ℝ), 0) (0, 1) 1 0 0 0 1),
      0 ≤ v.1 := by
  have key : ∀ k : ℕ, k ≤ capS → 0 ≤ Real.cos (capTheta k) := by
    intro k hk
    apply Real.cos_nonneg_of_mem_Icc
    have hpos : (0 : ℝ) < (capS : ℝ) := by exact_mod_cast capS_pos
    have h1 : 0 ≤ Real.pi * (k : ℝ) / (capS : ℝ) := by positivity
    have h2 : Real.pi * (k : ℝ) / (capS : ℝ) ≤ Real.pi := by
      rw [div_le_iff₀ hpos]
      have hkk : (k : ℝ) ≤ (capS : ℝ) := by exact_mod_cast hk
      nlinarith [Real.pi_pos]
    constructor
    · unfold capTheta
      linarith
    · unfold capTheta
      linarith
  rw [cap_unit_meshVertices]
  intro v hv
  obtain ⟨s, hs, hv⟩ := List.mem_flatMap.mp hv
  have hsS := List.mem_range.mp hs
  simp only [List.mem_cons, List.not_mem_nil, or_false] at hv
  rcases hv with hv | hv | hv
  · rw [hv]
  · rw [hv]
    have := key s (by omega)
    simpa using this
  · rw [hv]
    have := key (s + 1) (by omega)
    simpa using this

/-- Counterexample to claim C9's symmetry statement: the unit end cap with
normal `(0, 1)` is not symmetric about the axis through its centre along
that normal (its vertices all lie on one side of it). -/
theorem C9_cap_not_normal_symmetric :
    ¬ (∀ v ∈ meshVertices (cap_mesh realOps ((0 : ℝ), 0) (0, 1) 1 0 0 0 1),
        reflAcross (0, 0) (0, 1) v
          ∈ meshVertices (cap_mesh realOps ((0 : ℝ), 0) (0, 1) 1 0 0 0 1)) := by
  intro hsym
  have hS6 : 6 ≤ capS := le_max_right _ _
  have hpos : (0 : ℝ) < (capS : ℝ) := by exact_mod_cast capS_pos
  have hθ : capTheta 1 ∈ Set.Ioo (-(Real.pi / 2)) (Real.pi / 2) := by
    have h1 : 0 < Real.pi * ((1 : ℕ) : ℝ) / (capS : ℝ) := by positivity
    have hcap : (6 : ℝ) ≤ (capS : ℝ) := by exact_mod_cast hS6
    have h2 : Real.pi * ((1 : ℕ) : ℝ) / (capS : ℝ) < Real.pi := by
      rw [div_lt_iff₀ hpos]
      push_cast
      have := mul_lt_mul_of_pos_left (show (1 : ℝ) < (capS : ℝ) by linarith)
        Real.pi_pos
      linarith
    constructor
    · unfold capTheta
      linarith
    · unfold capTheta
      linarith
  have hxpos : 0 < Real.cos (capTheta 1) := Real.cos_pos_of_mem_Ioo hθ
  have hv := cap_unit_mem_of_le 1 (by have := hS6; omega)
  have hr := hsym _ hv
  have hrx : (reflAcross ((0 : ℝ), 0) (0, 1)
      (Real.cos (capTheta 1), Real.sin (capTheta 1))).1
      = -(Real.cos (capTheta 1)) := by
    simp only [reflAcross]
    ring
  have h0 := cap_unit_x_nonneg _ hr
  rw [hrx] at h0
  linarith

theorem cap_unit_endpoint_bot :
    ((0 : ℝ), (-1 : ℝ))
      ∈ meshVertices (cap_mesh realOps ((0 : ℝ), 0) (0, 1) 1 0 0 0 1) := by
  have h := cap_unit_mem_of_le 0 (Nat.zero_le _)
  have hθ : capTheta 0 = -(Real.pi / 2) := by
    unfold capTheta
    simp
  rw [hθ] at h
  simpa using h

theorem cap_unit_endpoint_top :
    ((0 : ℝ), (1 : ℝ))
      ∈ meshVertices (cap_mesh realOps ((0 : ℝ), 0) (0, 1) 1 0 0 0 1) := by
  have h := cap_unit_mem_of_le capS le_rfl
  have hne : ((capS : ℕ) : ℝ) ≠ 0 := Nat.cast_ne_zero.mpr capS_pos.ne'
  have hθ : capTheta capS = Real.pi / 2 := by
    unfold capTheta
    rw [mul_div_assoc, div_self hne, mul_one]
    ring
  rw [hθ] at h
  simpa using h

/-- Amended claim C9: for every stroke with `n ≥ 2`, `build_mesh` ends its
output with a round cap fan at the first and at the last centerline point,
each parameterised by the adjacent segment's normal; the normal spans the
cap's flat edge (the cap's arc endpoints are `center ± radius · normal`,
shown on the unit cap), not the cap's axis of symmetry. -/
theorem C9_caps :
    (∀ (γ : Type) [inst1 : LinearOrderedField γ] [inst2 : FloorRing γ],
      ∀ (ops : Ops γ) (points widths color l : List γ),
      2 ≤ points.length / 2 →
      build_mesh ops points widths color = some l →
      ∃ (pre : List γ) (sx sy ex ey : γ) (d0 dl : γ × γ),
        points[0]? = some sx ∧ points[1]? = some sy ∧
        points[(points.length / 2 - 1) * 2]? = some ex ∧
        points[(points.length / 2 - 1) * 2 + 1]? = some ey ∧
        seg_dir ops points 0 = some d0 ∧
        seg_dir ops points (points.length / 2 - 2) = some dl ∧
        l = pre ++
          cap_mesh ops (sx, sy) (norm_of d0) (widths.getD 0 1 * (1 / 2))
            (color.getD 0 0) (color.getD 1 0) (color.getD 2 0)
            (color.getD 3 1) ++
          cap_mesh ops (ex, ey) (norm_of dl)
            (widths.getD (points.length / 2 - 1) 1 * (1 / 2))
            (color.getD 0 0) (color.getD 1 0) (color.getD 2 0)
            (color.getD 3 1)) ∧
    ((0 : ℝ), (-1 : ℝ))
      ∈ meshVertices (cap_mesh realOps ((0 : ℝ), 0) (0, 1) 1 0 0 0 1) ∧
    ((0 : ℝ), (1 : ℝ))
      ∈ meshVertices (cap_mesh realOps ((0 : ℝ), 0) (0, 1) 1 0 0 0 1) := by
  refine ⟨?_, cap_unit_endpoint_bot, cap_unit_endpoint_top⟩
  intro γ inst1 inst2 ops points widths color l h2 hl
  obtain ⟨dirs, offs, quads, fans, sx, sy, ex, ey, nrm0, nrm1, hdirs, hdl,
    hoffs, hol, hquads, hql, hfans, hfl, hsx, hsy, hex, hey, hq0, hq1,
    heq⟩ := build_mesh_core ops points widths color h2
  rw [hl] at heq
  obtain rfl := Option.some_inj.mp heq
  obtain ⟨d0, hd0, hseg0⟩ := getElem?_of_mapM _ _ _ hdirs 0 0
    (List.getElem?_range (by omega))
  obtain ⟨dl, hdln, hsegl⟩ := getElem?_of_mapM _ _ _ hdirs
    (points.length / 2 - 2) (points.length / 2 - 2)
    (List.getElem?_range (by omega))
  have hn0 : nrm0 = norm_of d0 := by
    rw [List.getElem?_map, hd0] at hq0
    simpa using hq0.symm
  have hn1 : nrm1 = norm_of dl := by
    rw [List.getElem?_map, hdln] at hq1
    simpa using hq1.symm
  exact ⟨quads.flatten ++ fans.flatten, sx, sy, ex, ey, d0, dl, hsx, hsy,
    hex, hey, hseg0, hsegl, by rw [← hn0, ← hn1]⟩

theorem C9_caps_witness :
    2 ≤ ([0, 0, 1, 0] : List ℚ).length / 2 ∧
    ∃ l, build_mesh testOps [0, 0, 1, 0] [] [] = some l ∧
      ∃ (pre : List ℚ) (sx sy ex ey : ℚ) (d0 dl : ℚ × ℚ),
        ([0, 0, 1, 0] : List ℚ)[0]? = some sx ∧
        ([0, 0, 1, 0] : List ℚ)[1]? = some sy ∧
        ([0, 0, 1, 0] : List ℚ)[(([0, 0, 1, 0] : List ℚ).length / 2 - 1) * 2]?
          = some ex ∧
        ([0, 0, 1, 0] :
          List ℚ)[(([0, 0, 1, 0] : List ℚ).length / 2 - 1) * 2 + 1]?
          = some ey ∧
        seg_dir testOps [0, 0, 1, 0] 0 = some d0 ∧
        seg_dir testOps [0, 0, 1, 0] (([0, 0, 1, 0] : List ℚ).length / 2 - 2)
          = some dl ∧
        l = pre ++
          cap_mesh testOps (sx, sy) (norm_of d0)
            (([] : List ℚ).getD 0 1 * (1 / 2)) (([] : List ℚ).getD 0 0)
            (([] : List ℚ).getD 1 0) (([] : List ℚ).getD 2 0)
            (([] : List ℚ).getD 3 1) ++
          cap_mesh testOps (ex, ey) (norm_of dl)
            (([] : List ℚ).getD (([0, 0, 1, 0] : List ℚ).length / 2 - 1) 1
              * (1 / 2))
            (([] : List ℚ).getD 0 0) (([] : List ℚ).getD 1 0)
            (([] : List ℚ).getD 2 0) (([] : List ℚ).getD 3 1) := by
  obtain ⟨l, hl⟩ := Option.isSome_iff_exists.mp
    (build_mesh_total testOps [0, 0, 1, 0] [] [])
  exact ⟨by norm_num, l, hl,
    C9_caps.1 ℚ testOps [0, 0, 1, 0] [] [] l (by norm_num) hl⟩
